import Mathlib

/-!
Shallow embedding of the LEO-satellite admission / routing / bandwidth
allocation core (src/src/admission, src/src/dsroq, src/src/core/state.py).

Python dicts are embedded as association lists with first-match lookup and
in-place update (a key is stored at most once, as in a dict); machine floats
are embedded as exact rationals; fallible code (raising paths) returns
Option / Except.  Log strings ("reason"), timestamps and statistics counters
that no verified property mentions are omitted from the records.
-/

set_option maxHeartbeats 1000000

/-- Lookup with default, mirroring Python `d.get(k, dflt)`. -/
def dget [DecidableEq α] (d : List (α × β)) (k : α) (dflt : β) : β :=
  match d.find? (fun p => p.1 = k) with
  | some p => p.2
  | none => dflt

/-- Lookup returning an Option, mirroring Python `k in d` / `d[k]`. -/
def dfind [DecidableEq α] (d : List (α × β)) (k : α) : Option β :=
  (d.find? (fun p => p.1 = k)).map (fun p => p.2)

/-- In-place update mirroring Python `d[k] = v`: replaces the stored value
when the key is present, otherwise appends the new binding (dict insertion
order). -/
def dset [DecidableEq α] (d : List (α × β)) (k : α) (v : β) : List (α × β) :=
  if d.any (fun p => p.1 = k) then
    d.map (fun p => if p.1 = k then (k, v) else p)
  else
    d ++ [(k, v)]

/-- Removal mirroring Python `del d[k]`. -/
def dremove [DecidableEq α] (d : List (α × β)) (k : α) : List (α × β) :=
  d.filter (fun p => p.1 ≠ k)

theorem find_map_replace_same [DecidableEq α] (k : α) (v : β) :
    ∀ d : List (α × β), (d.any fun p => p.1 = k) = true →
      (d.map fun p => if p.1 = k then (k, v) else p).find? (fun p => p.1 = k)
        = some (k, v)
  | [], h => by simp at h
  | p :: d, h => by
    by_cases hp : p.1 = k
    · simp only [List.map_cons, if_pos hp, List.find?]
      simp
    · have hd : (d.any fun p => p.1 = k) = true := by
        simp only [List.any_cons, Bool.or_eq_true, decide_eq_true_eq] at h
        rcases h with h | h
        · exact absurd h hp
        · simpa using h
      simp only [List.map_cons, if_neg hp, List.find?, decide_eq_false hp]
      exact find_map_replace_same k v d hd

theorem find_map_replace_other [DecidableEq α] (k k' : α) (v : β) (h : k' ≠ k) :
    ∀ d : List (α × β),
      (d.map fun p => if p.1 = k then (k, v) else p).find? (fun p => p.1 = k')
        = d.find? (fun p => p.1 = k')
  | [] => by simp
  | p :: d => by
    by_cases hp : p.1 = k
    · have hk : ¬ (k = k') := fun hk => h (hk ▸ rfl)
      have hp' : ¬ (p.1 = k') := fun hpk => h (hpk ▸ hp ▸ rfl)
      simp only [List.map_cons, if_pos hp, List.find?, decide_eq_false hk,
        decide_eq_false hp']
      exact find_map_replace_other k k' v h d
    · by_cases hp' : p.1 = k'
      · simp only [List.map_cons, if_neg hp, List.find?, decide_eq_true hp']
      · simp only [List.map_cons, if_neg hp, List.find?, decide_eq_false hp']
        exact find_map_replace_other k k' v h d

theorem find_append_no_hit [DecidableEq α] (k : α) (v : β) :
    ∀ d : List (α × β), (d.any fun p => p.1 = k) = false →
      (d ++ [(k, v)]).find? (fun p => p.1 = k) = some (k, v)
  | [], _ => by simp [List.find?]
  | p :: d, h => by
    simp only [List.any_cons, Bool.or_eq_false_iff, decide_eq_false_iff_not] at h
    simp only [List.cons_append, List.find?, decide_eq_false h.1]
    exact find_append_no_hit k v d h.2

theorem find_append_other [DecidableEq α] (k k' : α) (v : β) (h : k' ≠ k) :
    ∀ d : List (α × β),
      (d ++ [(k, v)]).find? (fun p => p.1 = k') = d.find? (fun p => p.1 = k')
  | [] => by
    simp only [List.nil_append, List.find?,
      decide_eq_false (fun hk => h (hk ▸ rfl) : ¬ ((k, v).1 = k'))]
  | p :: d => by
    by_cases hp' : p.1 = k'
    · simp only [List.cons_append, List.find?, decide_eq_true hp']
    · simp only [List.cons_append, List.find?, decide_eq_false hp']
      exact find_append_other k k' v h d

theorem find_dset_same [DecidableEq α] (d : List (α × β)) (k : α) (v : β) :
    (dset d k v).find? (fun p => p.1 = k) = some (k, v) := by
  unfold dset
  by_cases h : (d.any fun p => p.1 = k) = true
  · rw [if_pos h]
    exact find_map_replace_same k v d h
  · rw [if_neg h]
    exact find_append_no_hit k v d (by rwa [Bool.not_eq_true] at h)

theorem find_dset_other [DecidableEq α] (d : List (α × β)) (k k' : α) (v : β)
    (h : k' ≠ k) :
    (dset d k v).find? (fun p => p.1 = k') = d.find? (fun p => p.1 = k') := by
  unfold dset
  by_cases hmem : (d.any fun p => p.1 = k) = true
  · rw [if_pos hmem]
    exact find_map_replace_other k k' v h d
  · rw [if_neg hmem]
    exact find_append_other k k' v h d

theorem dget_dset_same [DecidableEq α] (d : List (α × β)) (k : α) (v dflt : β) :
    dget (dset d k v) k dflt = v := by
  simp [dget, find_dset_same]

theorem dget_dset_other [DecidableEq α] (d : List (α × β)) (k k' : α) (v dflt : β)
    (h : k' ≠ k) : dget (dset d k v) k' dflt = dget d k' dflt := by
  simp [dget, find_dset_other d k k' v h]

/-- Python `round` (banker's rounding, round-half-to-even) on a rational. -/
def pyRound (x : ℚ) : ℤ :=
  let f := ⌊x⌋
  let r := x - f
  if r < 1/2 then f
  else if 1/2 < r then f + 1
  else if 2 ∣ f then f else f + 1

/-- Arithmetic mean, mirroring `np.mean` on a nonempty list. -/
def qmean (xs : List ℚ) : ℚ := xs.sum / xs.length

/- ## Core data model (src/src/core/state.py) -/

/-- QoS classes of `QoSClass` in state.py. -/
inductive QoSClass where
  | bestEffort
  | assured
  | premium
  | critical
  deriving DecidableEq

/-- One entry of `NetworkState.satellites` (a dict with id / lat / lon /
active / x / y / z fields as read by the embedded code). -/
structure Satellite where
  sid : Nat
  lat : ℚ
  lon : ℚ
  active : Bool
  x : ℚ
  y : ℚ
  z : ℚ
  deriving DecidableEq

/-- `NetworkState` of state.py restricted to the fields the embedded code
reads: satellites, topology (adjacency matrix of 0/1 entries),
link_utilization, link_capacity and queue_lengths. -/
structure NetworkState where
  satellites : List Satellite
  topology : List (List Nat)
  linkUtilization : List ((Nat × Nat) × ℚ)
  linkCapacity : List ((Nat × Nat) × ℚ)
  queueLengths : List (Nat × ℚ)
  deriving DecidableEq

/-- `UserRequest` of state.py. -/
structure UserRequest where
  userId : String
  serviceType : String
  bandwidthMbps : ℚ
  maxLatencyMs : ℚ
  minReliability : ℚ
  priority : Nat
  userLat : ℚ
  userLon : ℚ
  durationSeconds : ℚ
  timestamp : ℚ
  qosClass : String
  deriving DecidableEq

/-- `FlowRequest` of state.py (flow_type is omitted: no embedded code path
reads it). -/
structure FlowRequest where
  flowId : String
  source : ℚ × ℚ
  destination : ℚ × ℚ
  qosClass : QoSClass
  bandwidthRequirement : ℚ
  latencyRequirement : ℚ
  reliabilityRequirement : ℚ
  duration : ℚ
  arrivalTime : ℚ
  priority : Nat
  deriving DecidableEq

/-- `UserRequest.to_flow_request`: the qos_class string is mapped through
`qos_class_map` with default BEST_EFFORT. -/
def qosClassOfString (s : String) : QoSClass :=
  if s = "best_effort" then .bestEffort
  else if s = "assured" then .assured
  else if s = "premium" then .premium
  else if s = "critical" then .critical
  else .bestEffort

/-- `UserRequest.to_flow_request` from state.py. -/
def toFlowRequest (u : UserRequest) (flowId : String) (dest : ℚ × ℚ) : FlowRequest :=
  { flowId := flowId
    source := (u.userLat, u.userLon)
    destination := dest
    qosClass := qosClassOfString u.qosClass
    bandwidthRequirement := u.bandwidthMbps
    latencyRequirement := u.maxLatencyMs
    reliabilityRequirement := u.minReliability
    duration := u.durationSeconds
    arrivalTime := u.timestamp
    priority := u.priority }

/- ## Admission control (src/src/admission) -/

/-- `AdmissionDecision` enum (partAccept models PARTIAL_ACCEPT). -/
inductive AdmissionDecision where
  | accept
  | reject
  | degradedAccept
  | delayedAccept
  | partAccept
  deriving DecidableEq

/-- `AdmissionResult` dataclass with its field defaults (confidence 1.0,
allocated_bandwidth 0.0, allocated_satellite None, delay_seconds 0.0); the
reason / qos_metrics / positioning_metrics payloads are not modeled. -/
structure AdmissionResult where
  decision : AdmissionDecision
  confidence : ℚ := 1
  allocatedBandwidth : ℚ := 0
  allocatedSatellite : Option Nat := none
  delaySeconds : ℚ := 0
  deriving DecidableEq

/-- One element of the `visible_satellites` list of a positioning-metrics
dict; optional fields model possibly missing dict keys. -/
structure VisibleSat where
  vid : Nat
  signalStrengthDbm : Option ℚ
  elevation : Option ℚ
  deriving DecidableEq

/-- A positioning-metrics dict; `none` fields model missing keys
(`gdop` missing is read as float('inf') by the code). -/
structure PosMetrics where
  visibleSatellites : Option (List VisibleSat)
  gdop : Option ℚ
  positioningAccuracy : Option ℚ
  deriving DecidableEq

/-- Configuration of `ThresholdAdmissionController.__init__`. -/
structure ThresholdConfig where
  maxUsersPerSatellite : Nat := 100
  minSignalStrengthDbm : ℚ := -120
  maxLatencyThresholdMs : ℚ := 50
  minBandwidthThresholdMbps : ℚ := 1
  deriving DecidableEq

/-- `AdmissionController._calculate_satellite_load`. -/
def calcSatelliteLoad (ns : NetworkState) (sid : Nat) : ℚ :=
  min 1 (dget ns.queueLengths sid 0 / 100)

/-- `AdmissionController._calculate_link_quality`: 1 minus the average
utilization of links incident to the satellite (1.0 when none). -/
def calcLinkQuality (ns : NetworkState) (sid : Nat) : ℚ :=
  let rel := ns.linkUtilization.filter (fun p => p.1.1 = sid ∨ p.1.2 = sid)
  if rel.length = 0 then 1
  else 1 - (rel.map (fun p => p.2)).sum / rel.length

/-- Lookup in the `{sat['id']: sat}` dict comprehension of
`_find_candidate_satellites` (duplicate ids: the last entry wins). -/
def lookupVisible (vs : List VisibleSat) (sid : Nat) : Option VisibleSat :=
  (vs.filter (fun s => s.vid = sid)).getLast?

/-- `ThresholdAdmissionController._check_basic_qos`. -/
def checkBasicQos (u : UserRequest) : Bool :=
  !(decide (u.bandwidthMbps > 100)) && !(decide (u.maxLatencyMs < 10))

/-- Candidate filter body of
`ThresholdAdmissionController._find_candidate_satellites` for one satellite
id (visibility restriction, signal threshold, load < 0.8 cutoff, link
quality ≥ 0.3 cutoff). -/
def candidateOk (cfg : ThresholdConfig) (ns : NetworkState)
    (pm : Option PosMetrics) (sid : Nat) : Bool :=
  let visOk : Bool :=
    match pm with
    | none => true
    | some m =>
      match m.visibleSatellites with
      | none => true
      | some vs =>
        match lookupVisible vs sid with
        | none => false
        | some info =>
          match info.signalStrengthDbm with
          | none => true
          | some s => decide (cfg.minSignalStrengthDbm ≤ s)
  visOk
    && !(decide (calcSatelliteLoad ns sid > 8/10))
    && !(decide (calcLinkQuality ns sid < 3/10))

/-- `ThresholdAdmissionController._find_candidate_satellites`. -/
def findCandidateSatellites (cfg : ThresholdConfig) (ns : NetworkState)
    (pm : Option PosMetrics) : List Nat :=
  (ns.satellites.map (fun s => s.sid)).filter (candidateOk cfg ns pm)

/-- `ThresholdAdmissionController._select_best_satellite`: best score wins,
scores compared strictly against an initial -1 with `candidates[0]` as the
initial best. -/
def selectBestSatellite (ns : NetworkState) (cands : List Nat) : Nat :=
  match cands with
  | [] => 0
  | c0 :: _ =>
    (cands.foldl
      (fun acc sid =>
        let score := (1 - calcSatelliteLoad ns sid) * (6/10) + calcLinkQuality ns sid * (4/10)
        if score > acc.2 then (sid, score) else acc)
      (c0, -1)).1

/-- `ThresholdAdmissionController._check_bandwidth_availability`:
max(0, 100 - queue_length * 0.1). -/
def checkBandwidthAvailability (ns : NetworkState) (sid : Nat) : ℚ :=
  max 0 (100 - dget ns.queueLengths sid 0 * (1/10))

/-- Final accept / degrade / reject case split of
`ThresholdAdmissionController.make_admission_decision` once the best
satellite and its available bandwidth are known. -/
def thresholdOutcome (cfg : ThresholdConfig) (u : UserRequest)
    (best : Nat) (avail : ℚ) : AdmissionResult :=
  if avail ≥ u.bandwidthMbps then
    { decision := .accept
      allocatedBandwidth := u.bandwidthMbps
      allocatedSatellite := some best
      confidence := 9/10 }
  else if avail ≥ cfg.minBandwidthThresholdMbps then
    { decision := .degradedAccept
      allocatedBandwidth := avail
      allocatedSatellite := some best
      confidence := 7/10 }
  else
    { decision := .reject }

/-- `ThresholdAdmissionController.make_admission_decision` (the surrounding
try/except is unreachable for this pure pipeline). -/
def thresholdDecide (cfg : ThresholdConfig) (u : UserRequest)
    (ns : NetworkState) (pm : Option PosMetrics) : AdmissionResult :=
  if !checkBasicQos u then
    { decision := .reject }
  else
    let cands := findCandidateSatellites cfg ns pm
    if cands.isEmpty then
      { decision := .reject }
    else
      let best := selectBestSatellite ns cands
      thresholdOutcome cfg u best (checkBandwidthAvailability ns best)

/-- Configuration of `PositioningAwareAdmissionController.__init__`,
wrapping the base threshold controller's configuration (the DRL base
variant is external to this core). -/
structure PAConfig where
  threshold : ThresholdConfig
  positioningWeight : ℚ := 3/10
  qosWeight : ℚ := 7/10
  minVisibleSatellites : Nat := 4
  maxGdopThreshold : ℚ := 10
  minPositioningAccuracy : ℚ := 1/10
  minElevationAngle : ℚ := 10
  deriving DecidableEq

/-- `self.service_positioning_weights` with its `.get(service_type, 0.5)`
default. -/
def servicePositioningWeight (s : String) : ℚ :=
  dget [("navigation", 1), ("emergency", 9/10), ("location_based", 8/10),
        ("voice", 3/10), ("video", 2/10), ("data", 1/10)] s (1/2)

/-- Overall quality of
`PositioningAwareAdmissionController._evaluate_positioning_quality`:
weighted sum 0.30/0.25/0.25/0.15/0.05 of the five sub-scores.  `std` is a
parameter standing for `np.std` (a square root has no exact rational
value); every theorem below holds for all `std`. -/
def evalPositioningQuality (std : List ℚ → ℚ) (cfg : PAConfig)
    (pm : PosMetrics) : ℚ :=
  let vis := pm.visibleSatellites.getD []
  let satelliteScore : ℚ :=
    if cfg.minVisibleSatellites ≤ vis.length then min 1 ((vis.length : ℚ) / 10) else 0
  let gdopScore : ℚ :=
    match pm.gdop with
    | none => 0
    | some g => if 0 < g then max 0 (1 - (g - 1) / cfg.maxGdopThreshold) else 0
  let accuracyScore : ℚ := max 0 (pm.positioningAccuracy.getD 0)
  let signalScore : ℚ :=
    if vis.length = 0 then 0
    else max 0 (min 1 ((qmean (vis.map (fun s => s.signalStrengthDbm.getD (-140))) + 140) / 60))
  let geometryScore : ℚ :=
    if 4 ≤ vis.length then min 1 (std (vis.map (fun s => s.elevation.getD 0)) / 45) else 0
  satelliteScore * (3/10) + gdopScore * (1/4) + accuracyScore * (1/4)
    + signalScore * (3/20) + geometryScore * (1/20)

/-- `AdmissionController._find_best_satellite` as called with an optional
network state.  The upgrade branch of
`_adjust_decision_with_positioning` passes `network_state=None`, on which
`for satellite in network_state.satellites` raises AttributeError; that
raising path is the `Except.error` case. -/
def findBestSatelliteOpt (nsOpt : Option NetworkState)
    (pm : Option PosMetrics) : Except Unit (Option Nat) :=
  match nsOpt with
  | none => .error ()
  | some ns =>
    let visible : Option (List Nat) :=
      match pm with
      | none => none
      | some m =>
        match m.visibleSatellites with
        | none => none
        | some vs => some (vs.map (fun s => s.vid))
    .ok ((ns.satellites.foldl
      (fun (acc : Option Nat × ℚ) sat =>
        let sid := sat.sid
        let skip : Bool :=
          match visible with
          | none => false
          | some vl => !(vl.contains sid)
        if skip then acc
        else
          let score := (1 - calcSatelliteLoad ns sid) * (6/10) + calcLinkQuality ns sid * (4/10)
          if score > acc.2 then (some sid, score) else acc)
      (none, -1)).1)

/-- `PositioningAwareAdmissionController._adjust_decision_with_positioning`
(the raising upgrade branch surfaces as `Except.error`). -/
def adjustDecisionWithPositioning (cfg : PAConfig) (base : AdmissionResult)
    (u : UserRequest) (q : ℚ) (pm : PosMetrics) : Except Unit AdmissionResult :=
  let w := servicePositioningWeight u.serviceType
  let influence := cfg.positioningWeight * w
  match base.decision with
  | .accept =>
    if q < 3/10 ∧ 7/10 < w then
      if q < 1/10 then
        .ok { decision := .reject }
      else
        .ok { decision := .degradedAccept
              allocatedBandwidth := base.allocatedBandwidth * (8/10)
              allocatedSatellite := base.allocatedSatellite
              confidence := base.confidence * (8/10) }
    else
      .ok { decision := base.decision
            allocatedBandwidth := base.allocatedBandwidth
            allocatedSatellite := base.allocatedSatellite
            confidence := min 1 (base.confidence + q * influence) }
  | .reject =>
    if 8/10 < q ∧ w < 3/10 then
      match findBestSatelliteOpt none (some pm) with
      | .error e => .error e
      | .ok sat =>
        .ok { decision := .degradedAccept
              allocatedBandwidth := u.bandwidthMbps * (1/2)
              allocatedSatellite := sat
              confidence := 6/10 }
    else
      .ok { decision := base.decision }
  | .degradedAccept =>
    let factor : ℚ := if 7/10 < q then 9/10 else if q < 3/10 then 6/10 else 8/10
    let boost : ℚ := if 7/10 < q then 1/10 else if q < 3/10 then -(1/10) else 0
    .ok { decision := base.decision
          allocatedBandwidth := base.allocatedBandwidth * factor
          allocatedSatellite := base.allocatedSatellite
          confidence := max (1/10) (min 1 (base.confidence + boost)) }
  | _ =>
    .ok { decision := base.decision
          allocatedBandwidth := base.allocatedBandwidth
          allocatedSatellite := base.allocatedSatellite
          confidence := base.confidence
          delaySeconds := base.delaySeconds }

/-- `PositioningAwareAdmissionController.make_admission_decision`: base
decision, optional positioning adjustment, and the except-fallback that
re-queries the base controller when the adjustment raises. -/
def paDecide (std : List ℚ → ℚ) (cfg : PAConfig) (u : UserRequest)
    (ns : NetworkState) (pm : Option PosMetrics) : AdmissionResult :=
  let base := thresholdDecide cfg.threshold u ns pm
  match pm with
  | none => base
  | some m =>
    let q := evalPositioningQuality std cfg m
    match adjustDecisionWithPositioning cfg base u q m with
    | .ok r => r
    | .error _ => thresholdDecide cfg.threshold u ns pm

/-- Consistency of an admission result with its decision, as claimed:
REJECT iff (no bandwidth and no satellite); ACCEPT implies the full
requested bandwidth; DEGRADED/PARTIAL accept implies a positive bandwidth
strictly below the request. -/
def resultConsistent (u : UserRequest) (r : AdmissionResult) : Prop :=
  (r.decision = .reject ↔ (r.allocatedBandwidth = 0 ∧ r.allocatedSatellite = none))
  ∧ (r.decision = .accept → r.allocatedBandwidth = u.bandwidthMbps)
  ∧ ((r.decision = .degradedAccept ∨ r.decision = .partAccept) →
      0 < r.allocatedBandwidth ∧ r.allocatedBandwidth < u.bandwidthMbps)

theorem thresholdOutcome_consistent (cfg : ThresholdConfig) (u : UserRequest)
    (best : Nat) (avail : ℚ)
    (hthr : 0 < cfg.minBandwidthThresholdMbps) (hreq : 0 < u.bandwidthMbps) :
    resultConsistent u (thresholdOutcome cfg u best avail) := by
  unfold resultConsistent thresholdOutcome
  split_ifs with h1 h2
  · exact ⟨by simp [ne_of_gt hreq], by simp, by simp⟩
  · have h1' := lt_of_not_ge h1
    have h2' : 0 < avail := lt_of_lt_of_le hthr h2
    refine ⟨by simp [ne_of_gt h2'], by simp, ?_⟩
    intro _
    exact ⟨h2', h1'⟩
  · simp

theorem thresholdDecide_consistent (cfg : ThresholdConfig) (u : UserRequest)
    (ns : NetworkState) (pm : Option PosMetrics)
    (hthr : 0 < cfg.minBandwidthThresholdMbps) (hreq : 0 < u.bandwidthMbps) :
    resultConsistent u (thresholdDecide cfg u ns pm) := by
  unfold thresholdDecide
  by_cases h1 : checkBasicQos u
  · rw [if_neg (by simp [h1])]
    by_cases h2 : (findCandidateSatellites cfg ns pm).isEmpty
    · rw [if_pos h2]
      exact ⟨by simp, by simp, by simp⟩
    · rw [if_neg h2]
      exact thresholdOutcome_consistent cfg u _ _ hthr hreq
  · rw [if_pos (by simp [h1])]
    exact ⟨by simp, by simp, by simp⟩

theorem paDecide_consistent (std : List ℚ → ℚ) (cfg : PAConfig) (u : UserRequest)
    (ns : NetworkState) (pm : Option PosMetrics)
    (hthr : 0 < cfg.threshold.minBandwidthThresholdMbps)
    (hreq : 0 < u.bandwidthMbps) :
    resultConsistent u (paDecide std cfg u ns pm) := by
  have hbase := thresholdDecide_consistent cfg.threshold u ns pm hthr hreq
  unfold paDecide
  cases pm with
  | none => exact hbase
  | some m =>
    unfold adjustDecisionWithPositioning
    cases hdec : (thresholdDecide cfg.threshold u ns (some m)).decision with
    | accept =>
      have halloc := hbase.2.1 hdec
      simp only [hdec]
      split_ifs with hcond hq1
      · simp [resultConsistent]
      · refine ⟨by simp [ne_of_gt (by nlinarith : (0:ℚ) <
          (thresholdDecide cfg.threshold u ns (some m)).allocatedBandwidth * (8/10))],
          by simp, ?_⟩
        intro _
        constructor
        · nlinarith
        · nlinarith
      · refine ⟨by simp [halloc, ne_of_gt hreq], by simp [halloc], by simp⟩
    | reject =>
      simp only [hdec]
      split_ifs with hcond
      · exact hbase
      · simp [resultConsistent]
    | degradedAccept =>
      have hdeg := hbase.2.2 (Or.inl hdec)
      simp only [hdec]
      constructor
      · constructor
        · intro h
          exact absurd h (by simp)
        · intro h
          have h0 := h.1
          simp only [AdmissionResult.allocatedBandwidth] at h0
          split_ifs at h0 with hf1 hf2
          · nlinarith [hdeg.1]
          · nlinarith [hdeg.1]
          · nlinarith [hdeg.1]
      · constructor
        · intro h
          exact absurd h (by simp)
        · intro _
          constructor
          · simp only [AdmissionResult.allocatedBandwidth]
            split_ifs
            · nlinarith [hdeg.1]
            · nlinarith [hdeg.1]
            · nlinarith [hdeg.1]
          · simp only [AdmissionResult.allocatedBandwidth]
            split_ifs
            · nlinarith [hdeg.1, hdeg.2]
            · nlinarith [hdeg.1, hdeg.2]
            · nlinarith [hdeg.1, hdeg.2]
    | delayedAccept =>
      simp only [hdec]
      refine ⟨?_, by simp, by simp⟩
      constructor
      · intro h
        exact absurd h (by simp)
      · intro h
        have := hbase.1.mpr ⟨h.1, h.2⟩
        rw [hdec] at this
        exact absurd this (by simp)
    | partAccept =>
      simp only [hdec]
      refine ⟨?_, by simp, ?_⟩
      · constructor
        · intro h
          exact absurd h (by simp)
        · intro h
          have := hbase.1.mpr ⟨h.1, h.2⟩
          rw [hdec] at this
          exact absurd this (by simp)
      · intro _
        exact hbase.2.2 (Or.inr hdec)

/-- C2: every AdmissionResult returned by
ThresholdAdmissionController.make_admission_decision or
PositioningAwareAdmissionController.make_admission_decision satisfies:
REJECT iff (allocated_bandwidth = 0 and allocated_satellite = None);
ACCEPT implies allocated_bandwidth = requested; DEGRADED_ACCEPT or
PARTIAL_ACCEPT implies 0 < allocated_bandwidth < requested — for any
positioning-metrics input and any `np.std` realization, given a positive
configured min_bandwidth_threshold_mbps and a positive requested
bandwidth. -/
theorem c2_admission_result_consistency (std : List ℚ → ℚ) (cfg : PAConfig)
    (u : UserRequest) (ns : NetworkState) (pm : Option PosMetrics)
    (hthr : 0 < cfg.threshold.minBandwidthThresholdMbps)
    (hreq : 0 < u.bandwidthMbps) :
    resultConsistent u (thresholdDecide cfg.threshold u ns pm)
      ∧ resultConsistent u (paDecide std cfg u ns pm) :=
  ⟨thresholdDecide_consistent cfg.threshold u ns pm hthr hreq,
   paDecide_consistent std cfg u ns pm hthr hreq⟩

/-- A concrete `np.std` realization (any function works for the theorems
quantified over `std`; the concrete inputs below never reach the
standard-deviation branch). -/
def stdZero : List ℚ → ℚ := fun _ => 0

/-- Concrete positioning-aware configuration with the source defaults. -/
def cfgW : PAConfig := { threshold := {} }

/-- Concrete user request: 10 Mbps data service. -/
def uW : UserRequest :=
  { userId := "u1", serviceType := "data", bandwidthMbps := 10,
    maxLatencyMs := 50, minReliability := 9/10, priority := 5,
    userLat := 0, userLon := 0, durationSeconds := 60, timestamp := 0,
    qosClass := "best_effort" }

/-- Concrete network: one idle active satellite, no loaded links. -/
def nsW : NetworkState :=
  { satellites := [⟨0, 0, 0, true, 0, 0, 0⟩], topology := [[0]],
    linkUtilization := [], linkCapacity := [], queueLengths := [] }

/-- Witness for C2 at a concrete controller configuration and request. -/
theorem c2_admission_result_consistency_witness :
    (0 < cfgW.threshold.minBandwidthThresholdMbps ∧ 0 < uW.bandwidthMbps)
      ∧ (resultConsistent uW (thresholdDecide cfgW.threshold uW nsW none)
          ∧ resultConsistent uW (paDecide stdZero cfgW uW nsW none)) :=
  ⟨⟨by norm_num [cfgW], by norm_num [uW]⟩,
   c2_admission_result_consistency stdZero cfgW uW nsW none
     (by norm_num [cfgW]) (by norm_num [uW])⟩

/-- C5: once a best satellite is chosen (basic QoS passed, candidate set
nonempty), the threshold controller's outcome is the accept / degrade /
reject split on the available bandwidth 100 - queue_length * 0.1 of the
chosen satellite; and at available 3.0 Mbps, requested 10.0 Mbps and
min_bandwidth_threshold_mbps 1.0 the outcome is DEGRADED_ACCEPT with
allocated_bandwidth 3.0 and confidence 0.7. -/
theorem c5_threshold_bandwidth_branching :
    (∀ (cfg : ThresholdConfig) (u : UserRequest) (ns : NetworkState)
        (pm : Option PosMetrics),
      checkBasicQos u = true →
      (findCandidateSatellites cfg ns pm).isEmpty = false →
      0 < cfg.minBandwidthThresholdMbps → 0 < u.bandwidthMbps →
      thresholdDecide cfg u ns pm =
        (let best := selectBestSatellite ns (findCandidateSatellites cfg ns pm)
         let avail := 100 - dget ns.queueLengths best 0 * (1/10)
         if avail ≥ u.bandwidthMbps then
           { decision := .accept, allocatedBandwidth := u.bandwidthMbps,
             allocatedSatellite := some best, confidence := 9/10 }
         else if avail ≥ cfg.minBandwidthThresholdMbps then
           { decision := .degradedAccept, allocatedBandwidth := avail,
             allocatedSatellite := some best, confidence := 7/10 }
         else
           { decision := .reject }))
    ∧ thresholdOutcome { minBandwidthThresholdMbps := 1 } uW 5 3 =
        { decision := .degradedAccept, allocatedBandwidth := 3,
          allocatedSatellite := some 5, confidence := 7/10 } := by
  constructor
  · intro cfg u ns pm hqos hne hthr hreq
    unfold thresholdDecide
    rw [if_neg (by simp [hqos]), if_neg (by simp [hne])]
    unfold thresholdOutcome checkBandwidthAvailability
    set best := selectBestSatellite ns (findCandidateSatellites cfg ns pm)
    set availRaw : ℚ := 100 - dget ns.queueLengths best 0 * (1/10) with havr
    show (if max 0 availRaw ≥ u.bandwidthMbps then _
          else if max 0 availRaw ≥ cfg.minBandwidthThresholdMbps then _ else _) = _
    by_cases ha : availRaw ≥ u.bandwidthMbps
    · rw [if_pos (le_trans ha (le_max_right 0 availRaw)), if_pos ha]
    · have ha' : ¬ (max 0 availRaw ≥ u.bandwidthMbps) := by
        intro hmax
        rcases le_max_iff.mp hmax with h0 | hr
        · exact absurd (lt_of_lt_of_le hreq h0) (lt_irrefl _)
        · exact ha hr
      rw [if_neg ha', if_neg ha]
      by_cases hb : availRaw ≥ cfg.minBandwidthThresholdMbps
      · have hmax : max 0 availRaw = availRaw :=
          max_eq_right (le_trans (le_of_lt hthr) hb)
        rw [hmax, if_pos hb]
      · have hb' : ¬ (max 0 availRaw ≥ cfg.minBandwidthThresholdMbps) := by
          intro hmax
          rcases le_max_iff.mp hmax with h0 | hr
          · exact absurd (lt_of_lt_of_le hthr h0) (lt_irrefl _)
          · exact hb hr
        rw [if_neg hb', if_neg hb]
  · norm_num [thresholdOutcome, uW]

theorem uW_basic_qos : checkBasicQos uW = true := by
  norm_num [checkBasicQos, uW]

theorem nsW_candidates_nonempty :
    (findCandidateSatellites cfgW.threshold nsW none).isEmpty = false := by
  norm_num [findCandidateSatellites, candidateOk, calcSatelliteLoad,
    calcLinkQuality, nsW, dget, List.find?]

/-- Witness for C5 at a concrete configuration and network: an idle
satellite yields available bandwidth 100 and the ACCEPT branch of the
claimed case split. -/
theorem c5_threshold_bandwidth_branching_witness :
    (checkBasicQos uW = true
      ∧ (findCandidateSatellites cfgW.threshold nsW none).isEmpty = false)
    ∧ thresholdDecide cfgW.threshold uW nsW none =
        (let best := selectBestSatellite nsW (findCandidateSatellites cfgW.threshold nsW none)
         let avail := 100 - dget nsW.queueLengths best 0 * (1/10)
         if avail ≥ uW.bandwidthMbps then
           { decision := .accept, allocatedBandwidth := uW.bandwidthMbps,
             allocatedSatellite := some best, confidence := 9/10 }
         else if avail ≥ cfgW.threshold.minBandwidthThresholdMbps then
           { decision := .degradedAccept, allocatedBandwidth := avail,
             allocatedSatellite := some best, confidence := 7/10 }
         else
           { decision := .reject }) :=
  ⟨⟨uW_basic_qos, nsW_candidates_nonempty⟩,
   c5_threshold_bandwidth_branching.1 cfgW.threshold uW nsW none
     uW_basic_qos nsW_candidates_nonempty (by norm_num [cfgW]) (by norm_num [uW])⟩

/-- Concrete request whose bandwidth (200 Mbps > 100) makes the base
threshold controller reject at the basic-QoS check. -/
def uC6 : UserRequest :=
  { userId := "u6", serviceType := "data", bandwidthMbps := 200,
    maxLatencyMs := 50, minReliability := 9/10, priority := 5,
    userLat := 0, userLon := 0, durationSeconds := 60, timestamp := 0,
    qosClass := "best_effort" }

/-- Concrete positioning metrics with overall quality 1.1 > 0.8:
three visible satellites (visibility and geometry scores 0), gdop 1
(score 1), accuracy 3 (score 3), average signal -100 dBm (score 2/3). -/
def pmC6 : PosMetrics :=
  { visibleSatellites := some
      [⟨1, some (-100), some 30⟩, ⟨2, some (-100), some 40⟩, ⟨3, some (-100), some 50⟩],
    gdop := some 1,
    positioningAccuracy := some 3 }

/-- C6: at a concrete input where the base decision is REJECT, the overall
positioning quality exceeds 0.8 and the service importance weight is below
0.3, the upgrade branch of `_adjust_decision_with_positioning` raises
(AttributeError: `_find_best_satellite` is called with network_state=None)
and the controller's except-fallback returns the base REJECT result instead
of the claimed DEGRADED_ACCEPT at 50% bandwidth. -/
theorem c6_reject_upgrade_falls_back :
    (thresholdDecide cfgW.threshold uC6 nsW (some pmC6)).decision = .reject
    ∧ 8/10 < evalPositioningQuality stdZero cfgW pmC6
    ∧ servicePositioningWeight uC6.serviceType < 3/10
    ∧ paDecide stdZero cfgW uC6 nsW (some pmC6)
        = thresholdDecide cfgW.threshold uC6 nsW (some pmC6)
    ∧ (paDecide stdZero cfgW uC6 nsW (some pmC6)).decision ≠ .degradedAccept := by
  have hbase : thresholdDecide cfgW.threshold uC6 nsW (some pmC6)
      = { decision := .reject } := by
    unfold thresholdDecide
    rw [if_pos (by norm_num [checkBasicQos, uC6])]
  have hq : evalPositioningQuality stdZero cfgW pmC6 = 11/10 := by
    simp only [evalPositioningQuality, pmC6, cfgW, stdZero, qmean, List.map,
      Option.getD, List.length]
    norm_num
  have hw : servicePositioningWeight uC6.serviceType = 1/10 := by
    simp [uC6, servicePositioningWeight, dget, List.find?, String.reduceEq]
  have hpa : paDecide stdZero cfgW uC6 nsW (some pmC6)
      = thresholdDecide cfgW.threshold uC6 nsW (some pmC6) := by
    unfold paDecide adjustDecisionWithPositioning
    rw [hbase]
    simp only [AdmissionResult.decision, hq, hw]
    rw [if_pos (by norm_num)]
    rfl
  exact ⟨by rw [hbase], by rw [hq]; norm_num, by rw [hw]; norm_num, hpa,
    by rw [hpa, hbase]; simp⟩

/- ## Lyapunov scheduler (src/src/dsroq/core.py) -/

/-- Scheduling modes of `_make_scheduling_decision`. -/
inductive SchedulingMode where
  | conservative
  | balanced
  | aggressive
  deriving DecidableEq

/-- Queue-management policies of `_make_scheduling_decision`. -/
inductive QueueManagement where
  | dropTail
  | activeQueue
  | fairQueue
  deriving DecidableEq

/-- The scheduling-decision dict returned by `_make_scheduling_decision`. -/
structure SchedulingDecision where
  priority : Nat
  rateLimitMbps : ℚ
  schedulingMode : SchedulingMode
  queueManagement : QueueManagement
  deriving DecidableEq

/-- `LyapunovScheduler` state: V, queue_backlog_limit, lambda_pos and the
mutable queue_states dict. -/
structure SchedulerState where
  v : ℚ := 1
  queueBacklogLimit : ℚ := 100
  lambdaPos : ℚ := 1/5
  queueStates : List (Nat × ℚ) := []
  deriving DecidableEq

/-- `LyapunovScheduler._update_queue_states`: each route node's queue grows
by arrival_rate * 0.1 (arrival_rate = the flow's bandwidth requirement). -/
def updateQueueStates (s : SchedulerState) (fr : FlowRequest) (route : List Nat) :
    SchedulerState :=
  { s with
    queueStates := route.foldl
      (fun qs n => dset qs n (dget qs n 0 + fr.bandwidthRequirement * (1/10)))
      s.queueStates }

/-- `LyapunovScheduler._get_service_rate` (fixed 50.0). -/
def serviceRate : ℚ := 50

/-- `LyapunovScheduler._calculate_path_delay`. -/
def calcPathDelay (route : List Nat) : ℚ := (route.length : ℚ) * 10

/-- `LyapunovScheduler._calculate_path_throughput` (fixed 50.0 Mbps). -/
def calcPathThroughput : ℚ := 50

/-- `LyapunovScheduler._calculate_positioning_penalty`. -/
def calcPositioningPenalty (route : List Nat) : ℚ :=
  if route.length ≤ 2 then 0
  else
    let hopPenalty := ((route.length : ℚ) - 2) * (1/2)
    if 6 < route.length then hopPenalty * (3/2) else hopPenalty

/-- `LyapunovScheduler._calculate_qoe_penalty`.  The source compares
`getattr(flow_request, 'qos_class')` — a QoSClass enum value — against the
strings 'EF' and 'AF'; those comparisons are always false, so the
throughput (else) branch always runs, followed by the lambda_pos-weighted
positioning penalty. -/
def calcQoePenalty (s : SchedulerState) (fr : FlowRequest) (route : List Nat) : ℚ :=
  max 0 (fr.bandwidthRequirement - calcPathThroughput)
    + s.lambdaPos * calcPositioningPenalty route

/-- `LyapunovScheduler._calculate_drift_plus_penalty`. -/
def calcDriftPlusPenalty (s : SchedulerState) (fr : FlowRequest)
    (route : List Nat) : ℚ :=
  route.foldl
    (fun d n => d + dget s.queueStates n 0 * (fr.bandwidthRequirement - serviceRate))
    0
  + s.v * calcQoePenalty s fr route

/-- `max(self.queue_states.values())` when nonempty, else 0. -/
def maxQueueVal (qs : List (Nat × ℚ)) : ℚ :=
  match qs with
  | [] => 0
  | p :: rest => rest.foldl (fun m q => max m q.2) p.2

/-- `LyapunovScheduler._make_scheduling_decision`. -/
def makeSchedulingDecision (s : SchedulerState) (dpp : ℚ) : SchedulingDecision :=
  let congested := maxQueueVal s.queueStates > s.queueBacklogLimit
  if dpp > 1000 ∨ congested then
    { priority := 1, rateLimitMbps := 20,
      schedulingMode := .conservative, queueManagement := .dropTail }
  else if dpp > 500 then
    { priority := 5, rateLimitMbps := 40,
      schedulingMode := .balanced, queueManagement := .activeQueue }
  else
    { priority := 10, rateLimitMbps := 100,
      schedulingMode := .aggressive, queueManagement := .fairQueue }

/-- `LyapunovScheduler.schedule_flow`: update queue states, compute the
drift-plus-penalty on the updated state, decide. -/
def scheduleFlow (s : SchedulerState) (fr : FlowRequest) (route : List Nat) :
    SchedulingDecision × SchedulerState :=
  let s' := updateQueueStates s fr route
  let dpp := calcDriftPlusPenalty s' fr route
  (makeSchedulingDecision s' dpp, s')

theorem foldl_add_eq_sum (f : Nat → ℚ) :
    ∀ (l : List Nat) (a : ℚ), l.foldl (fun d n => d + f n) a = a + (l.map f).sum
  | [], a => by simp
  | n :: l, a => by
    rw [List.foldl_cons, foldl_add_eq_sum f l (a + f n), List.map_cons,
      List.sum_cons]
    ring

/-- C7: schedule_flow's decision equals the claimed case split on
drift = sum over route nodes of queue[node] * (arrival - 50) plus
V * qoe_penalty, computed on the post-update queue states: conservative
(priority 1, 20 Mbps, drop-tail) iff dpp > 1000 or some tracked queue
exceeds queue_backlog_limit; else balanced (40 Mbps, active queue) iff
dpp > 500; else aggressive (100 Mbps, fair queue). -/
theorem c7_lyapunov_scheduling_decision (s : SchedulerState) (fr : FlowRequest)
    (route : List Nat) :
    (scheduleFlow s fr route).1 =
      (let s' := updateQueueStates s fr route
       let drift := (route.map
         (fun n => dget s'.queueStates n 0 * (fr.bandwidthRequirement - 50))).sum
       let dpp := drift + s.v * calcQoePenalty s fr route
       if dpp > 1000 ∨ maxQueueVal s'.queueStates > s.queueBacklogLimit then
         { priority := 1, rateLimitMbps := 20,
           schedulingMode := .conservative, queueManagement := .dropTail }
       else if dpp > 500 then
         { priority := 5, rateLimitMbps := 40,
           schedulingMode := .balanced, queueManagement := .activeQueue }
       else
         { priority := 10, rateLimitMbps := 100,
           schedulingMode := .aggressive, queueManagement := .fairQueue }) := by
  have hs' : (updateQueueStates s fr route).v = s.v ∧
      (updateQueueStates s fr route).queueBacklogLimit = s.queueBacklogLimit ∧
      (updateQueueStates s fr route).lambdaPos = s.lambdaPos := by
    unfold updateQueueStates
    exact ⟨rfl, rfl, rfl⟩
  have hq : calcQoePenalty (updateQueueStates s fr route) fr route
      = calcQoePenalty s fr route := by
    unfold calcQoePenalty
    rw [hs'.2.2]
  unfold scheduleFlow makeSchedulingDecision calcDriftPlusPenalty serviceRate
  dsimp only
  rw [foldl_add_eq_sum, hs'.1, hs'.2.1, hq, zero_add]

/- ## Bandwidth allocator (src/src/dsroq/bandwidth_allocator.py) -/

/-- Configuration of `BandwidthAllocator.__init__` with its defaults. -/
structure AllocatorConfig where
  minBandwidthMbps : ℚ := 1
  maxBandwidthMbps : ℚ := 100
  bandwidthGranularity : ℚ := 1/10
  deriving DecidableEq

/-- `self.qos_weights`. -/
def qosWeight : QoSClass → ℚ
  | .critical => 4
  | .premium => 3
  | .assured => 2
  | .bestEffort => 1

/-- The `qos_ratios` table of `_get_min_qos_bandwidth`. -/
def qosFloorFrac : QoSClass → ℚ
  | .critical => 1
  | .premium => 8/10
  | .assured => 6/10
  | .bestEffort => 3/10

/-- `BandwidthAllocator._get_min_qos_bandwidth`. -/
def minQosBandwidth (fr : FlowRequest) : ℚ :=
  fr.bandwidthRequirement * qosFloorFrac fr.qosClass

/-- The consecutive directed link keys `(route[i], route[i+1])` of a route. -/
def linkPairs (route : List Nat) : List (Nat × Nat) := route.zip route.tail

/-- One entry of `self.active_allocations` (allocation_time omitted:
wall-clock, read by nothing embedded). -/
structure AllocInfo where
  bandwidth : ℚ
  route : List Nat
  qosClass : QoSClass
  minBandwidth : ℚ
  deriving DecidableEq

/-- Mutable state of a `BandwidthAllocator`: active_allocations and
link_allocations (statistics and history are untracked by every claim). -/
structure AllocState where
  active : List (String × AllocInfo) := []
  linkAlloc : List ((Nat × Nat) × ℚ) := []
  deriving DecidableEq

/-- `BandwidthAllocator._is_path_feasible`. -/
def isPathFeasible (route : List Nat) (bw : ℚ) (ns : NetworkState)
    (st : AllocState) : Bool :=
  decide (2 ≤ route.length) &&
    (linkPairs route).all (fun l =>
      match dfind ns.linkCapacity l with
      | none => false
      | some c => decide (bw ≤ c - dget st.linkAlloc l 0))

/-- `BandwidthAllocator._calculate_feasible_bandwidth`: bottleneck
availability, clamped at 0 and quantized to the bandwidth granularity with
Python round (an empty link list leaves min_available at infinity, so the
target passes through; unreachable under the length guard). -/
def calcFeasibleBandwidth (acfg : AllocatorConfig) (route : List Nat)
    (target : ℚ) (ns : NetworkState) (st : AllocState) : ℚ :=
  if route.length < 2 then 0
  else
    let minAvail : Option ℚ :=
      (linkPairs route).foldl
        (fun m l =>
          let a := dget ns.linkCapacity l 0 - dget st.linkAlloc l 0
          match m with
          | none => some a
          | some x => some (min x a))
        none
    let fb := match minAvail with
      | none => target
      | some m => min target m
    (pyRound (max 0 fb / acfg.bandwidthGranularity) : ℚ) * acfg.bandwidthGranularity

/-- Stable insertion preserving the original order among equal QoS
weights (Python `sorted` is stable). -/
def insertByWeight (x : String × AllocInfo) :
    List (String × AllocInfo) → List (String × AllocInfo)
  | [] => [x]
  | y :: ys =>
    if qosWeight y.2.qosClass < qosWeight x.2.qosClass then y :: insertByWeight x ys
    else x :: y :: ys

/-- `sorted(self.active_allocations.items(), key=qos_weight)`. -/
def sortActive (l : List (String × AllocInfo)) : List (String × AllocInfo) :=
  l.foldr insertByWeight []

/-- Loop body of `BandwidthAllocator._reclaim_bandwidth` over the sorted
snapshot: stops once enough is reclaimed, takes only the donor's excess
over its own floor, from strictly lower-weight flows only, and shrinks the
donor's recorded bandwidth (the donor's link_allocations entries are NOT
decreased — as in the source). -/
def reclaimGo (wNew needed : ℚ) :
    List (String × AllocInfo) → AllocState → ℚ → ℚ × AllocState
  | [], st, reclaimed => (reclaimed, st)
  | (fid, _) :: rest, st, reclaimed =>
    if needed ≤ reclaimed then (reclaimed, st)
    else
      match dfind st.active fid with
      | none => reclaimGo wNew needed rest st reclaimed
      | some info =>
        if qosWeight info.qosClass < wNew then
          let reclaimable := max 0 (info.bandwidth - info.minBandwidth)
          let toReclaim := min reclaimable (needed - reclaimed)
          if 0 < toReclaim then
            reclaimGo wNew needed rest
              { st with active := (dset st.active fid
                  { info with bandwidth := info.bandwidth - toReclaim }) }
              (reclaimed + toReclaim)
          else reclaimGo wNew needed rest st reclaimed
        else reclaimGo wNew needed rest st reclaimed

/-- `BandwidthAllocator._reclaim_bandwidth`. -/
def reclaimBandwidth (st : AllocState) (fr : FlowRequest) (needed : ℚ) :
    ℚ × AllocState :=
  reclaimGo (qosWeight fr.qosClass) needed (sortActive st.active) st 0

/-- `BandwidthAllocator._apply_fairness_constraint`. -/
def applyFairnessConstraint (acfg : AllocatorConfig) (st : AllocState)
    (fr : FlowRequest) (bw : ℚ) : ℚ :=
  let maxFairShare := acfg.maxBandwidthMbps / ((max 1 (st.active.length + 1) : Nat) : ℚ)
  min bw (maxFairShare * qosWeight fr.qosClass)

/-- `BandwidthAllocator._apply_qos_policy`: reclamation when below the QoS
floor, the unconditional floor boost for CRITICAL/PREMIUM flows, then the
fairness cap. -/
def applyQosPolicy (acfg : AllocatorConfig) (fr : FlowRequest) (bw : ℚ)
    (st : AllocState) : ℚ × AllocState :=
  let minRequired := minQosBandwidth fr
  let r1 :=
    if bw < minRequired then
      let r := reclaimBandwidth st fr (minRequired - bw)
      (bw + r.1, r.2)
    else (bw, st)
  let bw2 :=
    if fr.qosClass = .critical ∨ fr.qosClass = .premium then max r1.1 minRequired
    else r1.1
  (applyFairnessConstraint acfg r1.2 fr bw2, r1.2)

/-- `BandwidthAllocator._execute_allocation`: add the bandwidth on every
route link and record the allocation under the flow id. -/
def executeAllocation (fr : FlowRequest) (route : List Nat) (bw : ℚ)
    (st : AllocState) : AllocState :=
  { active := dset st.active fr.flowId
      { bandwidth := bw, route := route, qosClass := fr.qosClass,
        minBandwidth := minQosBandwidth fr },
    linkAlloc := (linkPairs route).foldl
      (fun la l => dset la l (dget la l 0 + bw)) st.linkAlloc }

/-- `BandwidthAllocator.allocate`. -/
def bwAllocate (acfg : AllocatorConfig) (fr : FlowRequest) (route : List Nat)
    (target : ℚ) (ns : NetworkState) (st : AllocState) : ℚ × AllocState :=
  if isPathFeasible route target ns st = false then (0, st)
  else
    let fb := calcFeasibleBandwidth acfg route target ns st
    let r := applyQosPolicy acfg fr fb st
    if 0 < r.1 then (r.1, executeAllocation fr route r.1 r.2)
    else (r.1, r.2)

/-- `BandwidthAllocator.deallocate`: release the flow's recorded bandwidth
on every route link (clamped at 0) and drop the record. -/
def deallocateFlow (fid : String) (st : AllocState) : AllocState :=
  match dfind st.active fid with
  | none => st
  | some info =>
    { active := dremove st.active fid,
      linkAlloc := (linkPairs info.route).foldl
        (fun la l => dset la l (max 0 (dget la l 0 - info.bandwidth)))
        st.linkAlloc }

/-- An operation against one `BandwidthAllocator` instance. -/
inductive AllocOp where
  | alloc (fr : FlowRequest) (route : List Nat) (target : ℚ)
  | dealloc (fid : String)
  deriving DecidableEq

/-- State transition of one allocator operation. -/
def allocStep (acfg : AllocatorConfig) (ns : NetworkState) (st : AllocState) :
    AllocOp → AllocState
  | .alloc fr route target => (bwAllocate acfg fr route target ns st).2
  | .dealloc fid => deallocateFlow fid st

/-- Run a sequence of allocator operations. -/
def runAllocOps (acfg : AllocatorConfig) (ns : NetworkState)
    (st : AllocState) (ops : List AllocOp) : AllocState :=
  ops.foldl (allocStep acfg ns) st

/-- Guard of the amended C1: an allocate is safe when the bandwidth it
would commit fits into every route link's remaining capacity (and the route
repeats no link); deallocations are always safe. -/
def safeAllocOp (acfg : AllocatorConfig) (ns : NetworkState) (st : AllocState) :
    AllocOp → Bool
  | .dealloc _ => true
  | .alloc fr route target =>
    if isPathFeasible route target ns st = false then true
    else
      let fb := calcFeasibleBandwidth acfg route target ns st
      let r := applyQosPolicy acfg fr fb st
      if 0 < r.1 then
        (decide (linkPairs route).Nodup &&
          (linkPairs route).all
            (fun l => decide (dget st.linkAlloc l 0 + r.1 ≤ dget ns.linkCapacity l 0)))
          && decide (0 ≤ minQosBandwidth fr)
      else true

/-- Every operation of the sequence is safe in the state where it runs. -/
def safeAllocOps (acfg : AllocatorConfig) (ns : NetworkState) :
    AllocState → List AllocOp → Bool
  | _, [] => true
  | st, op :: rest =>
    safeAllocOp acfg ns st op &&
      safeAllocOps acfg ns (allocStep acfg ns st op) rest

/-- C1's invariant: for every committed allocation and every directed link
on its route, the cumulative allocated bandwidth tracked in
link_allocations is at most that link's capacity in the NetworkState. -/
def AllocInv (ns : NetworkState) (st : AllocState) : Prop :=
  ∀ fid info, dfind st.active fid = some info →
    ∀ l ∈ linkPairs info.route,
      ∃ c, dfind ns.linkCapacity l = some c ∧ dget st.linkAlloc l 0 ≤ c

theorem dfind_dset_same [DecidableEq α] (d : List (α × β)) (k : α) (v : β) :
    dfind (dset d k v) k = some v := by
  simp [dfind, find_dset_same]

theorem dfind_dset_other [DecidableEq α] (d : List (α × β)) (k k' : α) (v : β)
    (h : k' ≠ k) : dfind (dset d k v) k' = dfind d k' := by
  simp [dfind, find_dset_other d k k' v h]

theorem dget_eq_dfind [DecidableEq α] (d : List (α × β)) (k : α) (dflt : β) :
    dget d k dflt = (dfind d k).getD dflt := by
  unfold dget dfind
  cases d.find? (fun p => p.1 = k) <;> simp

theorem dfind_nil [DecidableEq α] (k : α) : dfind ([] : List (α × β)) k = none := rfl

theorem dfind_cons [DecidableEq α] (k₀ : α) (v₀ : β) (d : List (α × β)) (k : α) :
    dfind ((k₀, v₀) :: d) k = if k₀ = k then some v₀ else dfind d k := by
  unfold dfind
  by_cases h : k₀ = k
  · simp [List.find?, h]
  · simp [List.find?, h]

theorem dremove_cons_hit [DecidableEq α] (a : α) (b : β) (d : List (α × β))
    (k : α) (hp : a = k) : dremove ((a, b) :: d) k = dremove d k := by
  simp [dremove, List.filter_cons, hp]

theorem dremove_cons_miss [DecidableEq α] (a : α) (b : β) (d : List (α × β))
    (k : α) (hp : ¬ a = k) : dremove ((a, b) :: d) k = (a, b) :: dremove d k := by
  simp [dremove, List.filter_cons, hp]

theorem dfind_dremove_self [DecidableEq α] (k : α) :
    ∀ d : List (α × β), dfind (dremove d k) k = none
  | [] => rfl
  | (a, b) :: d => by
    by_cases hp : a = k
    · rw [dremove_cons_hit a b d k hp]
      exact dfind_dremove_self k d
    · rw [dremove_cons_miss a b d k hp, dfind_cons, if_neg hp]
      exact dfind_dremove_self k d

theorem dfind_dremove_other [DecidableEq α] (k k' : α) (h : k' ≠ k) :
    ∀ d : List (α × β), dfind (dremove d k) k' = dfind d k'
  | [] => rfl
  | (a, b) :: d => by
    by_cases hp : a = k
    · have ha : ¬ (a = k') := fun hk => h (hk ▸ hp)
      rw [dremove_cons_hit a b d k hp, dfind_dremove_other k k' h d,
        dfind_cons, if_neg ha]
    · rw [dremove_cons_miss a b d k hp, dfind_cons, dfind_cons,
        dfind_dremove_other k k' h d]

/-- Reclamation never touches link_allocations (it only shrinks donors'
recorded bandwidths — exactly the source's behavior). -/
theorem reclaimGo_linkAlloc (w n : ℚ) :
    ∀ (snap : List (String × AllocInfo)) (st : AllocState) (r : ℚ),
      (reclaimGo w n snap st r).2.linkAlloc = st.linkAlloc
  | [], _, _ => rfl
  | (fid, x) :: rest, st, r => by
    unfold reclaimGo
    by_cases h1 : n ≤ r
    · rw [if_pos h1]
    · rw [if_neg h1]
      cases hf : dfind st.active fid with
      | none => exact reclaimGo_linkAlloc w n rest st r
      | some info =>
        dsimp only
        by_cases h2 : qosWeight info.qosClass < w
        · rw [if_pos h2]
          by_cases h3 : 0 < min (max 0 (info.bandwidth - info.minBandwidth)) (n - r)
          · rw [if_pos h3]
            exact reclaimGo_linkAlloc w n rest _ _
          · rw [if_neg h3]
            exact reclaimGo_linkAlloc w n rest st r
        · rw [if_neg h2]
          exact reclaimGo_linkAlloc w n rest st r

/-- Flows recorded after an operation existed before it with the same
route (bandwidths may shrink). -/
def routesPreserved (st st' : AllocState) : Prop :=
  ∀ fid info, dfind st'.active fid = some info →
    ∃ info₀, dfind st.active fid = some info₀ ∧ info.route = info₀.route

theorem routesPreserved_refl (st : AllocState) : routesPreserved st st :=
  fun _ info h => ⟨info, h, rfl⟩

theorem routesPreserved_trans {s1 s2 s3 : AllocState}
    (h12 : routesPreserved s1 s2) (h23 : routesPreserved s2 s3) :
    routesPreserved s1 s3 := by
  intro fid info h
  obtain ⟨i2, h2, hr2⟩ := h23 fid info h
  obtain ⟨i1, h1, hr1⟩ := h12 fid i2 h2
  exact ⟨i1, h1, hr2.trans hr1⟩

theorem routesPreserved_dset_shrink (st : AllocState) (fid : String)
    (info : AllocInfo) (b : ℚ) (hf : dfind st.active fid = some info) :
    routesPreserved st
      { st with active := dset st.active fid { info with bandwidth := b } } := by
  intro fid' info' h
  dsimp only at h
  by_cases he : fid' = fid
  · subst he
    rw [dfind_dset_same] at h
    injection h with h
    exact ⟨info, hf, by rw [← h]⟩
  · rw [dfind_dset_other _ _ _ _ he] at h
    exact ⟨info', h, rfl⟩

theorem reclaimGo_routes (w n : ℚ) :
    ∀ (snap : List (String × AllocInfo)) (st : AllocState) (r : ℚ),
      routesPreserved st (reclaimGo w n snap st r).2
  | [], st, _ => routesPreserved_refl st
  | (fid, x) :: rest, st, r => by
    unfold reclaimGo
    by_cases h1 : n ≤ r
    · rw [if_pos h1]
      exact routesPreserved_refl st
    · rw [if_neg h1]
      cases hf : dfind st.active fid with
      | none => exact reclaimGo_routes w n rest st r
      | some info =>
        dsimp only
        by_cases h2 : qosWeight info.qosClass < w
        · rw [if_pos h2]
          by_cases h3 : 0 < min (max 0 (info.bandwidth - info.minBandwidth)) (n - r)
          · rw [if_pos h3]
            exact routesPreserved_trans
              (routesPreserved_dset_shrink st fid info _ hf)
              (reclaimGo_routes w n rest _ _)
          · rw [if_neg h3]
            exact reclaimGo_routes w n rest st r
        · rw [if_neg h2]
          exact reclaimGo_routes w n rest st r

/-- Nonnegativity of every recorded bandwidth and floor. -/
def AllocNonneg (st : AllocState) : Prop :=
  ∀ fid info, dfind st.active fid = some info →
    0 ≤ info.bandwidth ∧ 0 ≤ info.minBandwidth

theorem reclaimGo_nonneg (w n : ℚ) :
    ∀ (snap : List (String × AllocInfo)) (st : AllocState) (r : ℚ),
      AllocNonneg st → AllocNonneg (reclaimGo w n snap st r).2
  | [], _, _, h => h
  | (fid, x) :: rest, st, r, hn => by
    unfold reclaimGo
    by_cases h1 : n ≤ r
    · rw [if_pos h1]
      exact hn
    · rw [if_neg h1]
      cases hf : dfind st.active fid with
      | none => exact reclaimGo_nonneg w n rest st r hn
      | some info =>
        dsimp only
        by_cases h2 : qosWeight info.qosClass < w
        · rw [if_pos h2]
          by_cases h3 : 0 < min (max 0 (info.bandwidth - info.minBandwidth)) (n - r)
          · rw [if_pos h3]
            apply reclaimGo_nonneg w n rest _ _
            intro fid' info' h'
            dsimp only at h'
            by_cases he : fid' = fid
            · subst he
              rw [dfind_dset_same] at h'
              injection h' with h'
              obtain ⟨hb, hm⟩ := hn fid' info hf
              have h0max : 0 < max 0 (info.bandwidth - info.minBandwidth) :=
                (lt_min_iff.mp h3).1
              have hgt : 0 < info.bandwidth - info.minBandwidth := by
                by_contra hle
                push_neg at hle
                rw [max_eq_left hle] at h0max
                exact lt_irrefl 0 h0max
              have hle2 : min (max 0 (info.bandwidth - info.minBandwidth)) (n - r)
                  ≤ info.bandwidth - info.minBandwidth :=
                le_trans (min_le_left _ _)
                  (le_of_eq (max_eq_right (le_of_lt hgt)))
              rw [← h']
              dsimp only
              exact ⟨by linarith, hm⟩
            · rw [dfind_dset_other _ _ _ _ he] at h'
              exact hn fid' info' h'
          · rw [if_neg h3]
            exact reclaimGo_nonneg w n rest st r hn
        · rw [if_neg h2]
          exact reclaimGo_nonneg w n rest st r hn

theorem applyQos_linkAlloc (acfg : AllocatorConfig) (fr : FlowRequest)
    (bw : ℚ) (st : AllocState) :
    (applyQosPolicy acfg fr bw st).2.linkAlloc = st.linkAlloc := by
  unfold applyQosPolicy reclaimBandwidth
  dsimp only
  by_cases h : bw < minQosBandwidth fr
  · rw [if_pos h]
    exact reclaimGo_linkAlloc _ _ _ _ _
  · rw [if_neg h]

theorem applyQos_routes (acfg : AllocatorConfig) (fr : FlowRequest)
    (bw : ℚ) (st : AllocState) :
    routesPreserved st (applyQosPolicy acfg fr bw st).2 := by
  unfold applyQosPolicy reclaimBandwidth
  dsimp only
  by_cases h : bw < minQosBandwidth fr
  · rw [if_pos h]
    exact reclaimGo_routes _ _ _ _ _
  · rw [if_neg h]
    exact routesPreserved_refl st

theorem applyQos_nonneg (acfg : AllocatorConfig) (fr : FlowRequest)
    (bw : ℚ) (st : AllocState) (hn : AllocNonneg st) :
    AllocNonneg (applyQosPolicy acfg fr bw st).2 := by
  unfold applyQosPolicy reclaimBandwidth
  dsimp only
  by_cases h : bw < minQosBandwidth fr
  · rw [if_pos h]
    exact reclaimGo_nonneg _ _ _ _ _ hn
  · rw [if_neg h]
    exact hn

/-- Value of link_allocations after `_execute_allocation`'s link loop: each
link of a duplicate-free link list gains exactly the committed bandwidth
once. -/
theorem dget_foldl_addlink (bw : ℚ) :
    ∀ (L : List (Nat × Nat)) (la : List ((Nat × Nat) × ℚ)) (l : Nat × Nat),
      L.Nodup →
      dget (L.foldl (fun la l' => dset la l' (dget la l' 0 + bw)) la) l 0
        = dget la l 0 + (if l ∈ L then bw else 0)
  | [], la, l, _ => by simp
  | l₀ :: L, la, l, h => by
    rw [List.foldl_cons]
    have hnd := List.nodup_cons.mp h
    rw [dget_foldl_addlink bw L _ l hnd.2]
    by_cases he : l = l₀
    · subst he
      rw [dget_dset_same]
      simp [hnd.1]
    · rw [dget_dset_other _ _ _ _ _ he]
      by_cases hm : l ∈ L
      · simp [hm, he]
      · simp [hm, he]

/-- `deallocate`'s link loop can only keep link_allocations below any
nonnegative per-link bound. -/
theorem dget_foldl_sublink_le (b c : ℚ) (hc : 0 ≤ c) (hb : 0 ≤ b) :
    ∀ (L : List (Nat × Nat)) (la : List ((Nat × Nat) × ℚ)) (l : Nat × Nat),
      dget la l 0 ≤ c →
      dget (L.foldl (fun la l' => dset la l' (max 0 (dget la l' 0 - b))) la) l 0 ≤ c
  | [], _, _, h => h
  | l₀ :: L, la, l, h => by
    rw [List.foldl_cons]
    apply dget_foldl_sublink_le b c hc hb L
    by_cases he : l = l₀
    · subst he
      rw [dget_dset_same]
      exact max_le hc (le_trans (sub_le_self _ hb) h)
    · rw [dget_dset_other _ _ _ _ _ he]
      exact h

/-- One safe allocator operation preserves C1's capacity invariant and the
nonnegativity of recorded bandwidths. -/
theorem allocStep_preserves (acfg : AllocatorConfig) (ns : NetworkState)
    (st : AllocState) (op : AllocOp)
    (hcap : ∀ l c, dfind ns.linkCapacity l = some c → 0 ≤ c)
    (hinv : AllocInv ns st) (hn : AllocNonneg st)
    (hsafe : safeAllocOp acfg ns st op = true) :
    AllocInv ns (allocStep acfg ns st op) ∧ AllocNonneg (allocStep acfg ns st op) := by
  cases op with
  | dealloc fid =>
    show AllocInv ns (deallocateFlow fid st) ∧ AllocNonneg (deallocateFlow fid st)
    unfold deallocateFlow
    cases hf : dfind st.active fid with
    | none => exact ⟨hinv, hn⟩
    | some info =>
      dsimp only
      constructor
      · intro fid' info' h'
        dsimp only at h'
        by_cases he : fid' = fid
        · subst he
          rw [dfind_dremove_self] at h'
          exact absurd h' (by simp)
        · rw [dfind_dremove_other _ _ he] at h'
          intro l hl
          obtain ⟨c, hcfind, hle⟩ := hinv fid' info' h' l hl
          exact ⟨c, hcfind,
            dget_foldl_sublink_le info.bandwidth c (hcap l c hcfind)
              (hn fid info hf).1 _ _ _ hle⟩
      · intro fid' info' h'
        dsimp only at h'
        by_cases he : fid' = fid
        · subst he
          rw [dfind_dremove_self] at h'
          exact absurd h' (by simp)
        · rw [dfind_dremove_other _ _ he] at h'
          exact hn fid' info' h'
  | alloc fr route target =>
    show AllocInv ns (bwAllocate acfg fr route target ns st).2
      ∧ AllocNonneg (bwAllocate acfg fr route target ns st).2
    unfold bwAllocate
    unfold safeAllocOp at hsafe
    dsimp only at hsafe
    by_cases hfeas : isPathFeasible route target ns st = false
    · rw [if_pos hfeas]
      exact ⟨hinv, hn⟩
    · rw [if_neg hfeas]
      rw [if_neg hfeas] at hsafe
      dsimp only at hsafe ⊢
      set fb := calcFeasibleBandwidth acfg route target ns st with hfb
      set r := applyQosPolicy acfg fr fb st with hr
      have hla : r.2.linkAlloc = st.linkAlloc := applyQos_linkAlloc acfg fr fb st
      have hroutes : routesPreserved st r.2 := applyQos_routes acfg fr fb st
      have hn1 : AllocNonneg r.2 := applyQos_nonneg acfg fr fb st hn
      have hinv1 : AllocInv ns r.2 := by
        intro fid' info' h'
        obtain ⟨info₀, h₀, hroute⟩ := hroutes fid' info' h'
        intro l hl
        rw [hroute] at hl
        obtain ⟨c, hcfind, hle⟩ := hinv fid' info₀ h₀ l hl
        exact ⟨c, hcfind, by rw [hla]; exact hle⟩
      by_cases hpos : 0 < r.1
      · rw [if_pos hpos]
        rw [if_pos hpos] at hsafe
        have hparts := (Bool.and_eq_true _ _).mp hsafe
        have hparts1 := (Bool.and_eq_true _ _).mp hparts.1
        have hnd : (linkPairs route).Nodup := of_decide_eq_true hparts1.1
        have hall : ∀ l ∈ linkPairs route,
            dget st.linkAlloc l 0 + r.1 ≤ dget ns.linkCapacity l 0 := by
          intro l hl
          have h2 := (List.all_eq_true.mp hparts1.2) l hl
          exact of_decide_eq_true h2
        have hreq : 0 ≤ minQosBandwidth fr := of_decide_eq_true hparts.2
        have hcapmem : ∀ l ∈ linkPairs route, ∃ c,
            dfind ns.linkCapacity l = some c := by
          intro l hl
          have hfeas' : isPathFeasible route target ns st = true := by
            cases hx : isPathFeasible route target ns st with
            | false => exact absurd hx hfeas
            | true => rfl
          unfold isPathFeasible at hfeas'
          have := (Bool.and_eq_true _ _).mp hfeas'
          have h2 := (List.all_eq_true.mp this.2) l hl
          cases hc : dfind ns.linkCapacity l with
          | none => rw [hc] at h2; exact absurd h2 (by simp)
          | some c => exact ⟨c, rfl⟩
        unfold executeAllocation
        have hget : ∀ l, dget ((linkPairs route).foldl
            (fun la l' => dset la l' (dget la l' 0 + r.1)) r.2.linkAlloc) l 0
            = dget st.linkAlloc l 0 + (if l ∈ linkPairs route then r.1 else 0) := by
          intro l
          rw [dget_foldl_addlink r.1 (linkPairs route) r.2.linkAlloc l hnd, hla]
        constructor
        · intro fid' info' h'
          dsimp only at h'
          by_cases he : fid' = fr.flowId
          · subst he
            rw [dfind_dset_same] at h'
            injection h' with h'
            intro l hl
            rw [← h'] at hl
            dsimp only at hl
            obtain ⟨c, hcfind⟩ := hcapmem l hl
            refine ⟨c, hcfind, ?_⟩
            rw [hget l, if_pos hl]
            have := hall l hl
            rw [dget_eq_dfind ns.linkCapacity l 0, hcfind] at this
            simpa using this
          · rw [dfind_dset_other _ _ _ _ he] at h'
            obtain ⟨info₀, h₀, hroute⟩ := hroutes fid' info' h'
            intro l hl
            rw [hroute] at hl
            obtain ⟨c, hcfind, hle⟩ := hinv fid' info₀ h₀ l hl
            refine ⟨c, hcfind, ?_⟩
            rw [hget l]
            by_cases hm : l ∈ linkPairs route
            · rw [if_pos hm]
              have := hall l hm
              rw [dget_eq_dfind ns.linkCapacity l 0, hcfind] at this
              simpa using this
            · rw [if_neg hm]
              simpa using hle
        · intro fid' info' h'
          dsimp only at h'
          by_cases he : fid' = fr.flowId
          · subst he
            rw [dfind_dset_same] at h'
            injection h' with h'
            rw [← h']
            exact ⟨le_of_lt hpos, hreq⟩
          · rw [dfind_dset_other _ _ _ _ he] at h'
            exact hn1 fid' info' h'
      · rw [if_neg hpos]
        exact ⟨hinv1, hn1⟩

theorem runAllocOps_preserves (acfg : AllocatorConfig) (ns : NetworkState)
    (hcap : ∀ l c, dfind ns.linkCapacity l = some c → 0 ≤ c) :
    ∀ (ops : List AllocOp) (st : AllocState),
      AllocInv ns st → AllocNonneg st → safeAllocOps acfg ns st ops = true →
      AllocInv ns (runAllocOps acfg ns st ops)
        ∧ AllocNonneg (runAllocOps acfg ns st ops)
  | [], st, hinv, hn, _ => ⟨hinv, hn⟩
  | op :: rest, st, hinv, hn, hsafe => by
    have hsplit := (Bool.and_eq_true _ _).mp hsafe
    have hstep := allocStep_preserves acfg ns st op hcap hinv hn hsplit.1
    have : runAllocOps acfg ns st (op :: rest)
        = runAllocOps acfg ns (allocStep acfg ns st op) rest := rfl
    rw [this]
    exact runAllocOps_preserves acfg ns hcap rest (allocStep acfg ns st op)
      hstep.1 hstep.2 hsplit.2

/-- C1 (amended): after every sequence of BandwidthAllocator allocate /
deallocate operations in which each committed allocation fits within every
route link's remaining tracked capacity, repeats no directed link, and has
a nonnegative QoS floor, every committed allocation's route links carry a
cumulative allocated bandwidth (link_allocations) at most the link's
capacity in the NetworkState, the capacities being nonnegative.  The
unamended claim is refuted by c1_capacity_counterexample: the
CRITICAL/PREMIUM floor boost of _apply_qos_policy commits past the
feasibility check. -/
theorem c1_link_capacity_invariant (acfg : AllocatorConfig) (ns : NetworkState)
    (ops : List AllocOp) (st0 : AllocState)
    (hcap : ∀ l c, dfind ns.linkCapacity l = some c → 0 ≤ c)
    (hinv : AllocInv ns st0) (hn : AllocNonneg st0)
    (hsafe : safeAllocOps acfg ns st0 ops = true) :
    AllocInv ns (runAllocOps acfg ns st0 ops) :=
  (runAllocOps_preserves acfg ns hcap ops st0 hinv hn hsafe).1

/-- CRITICAL flow requesting 10 Mbps; the scheduler's target is 5 Mbps. -/
def frC1 : FlowRequest :=
  { flowId := "f1", source := (0, 0), destination := (0, 0),
    qosClass := .critical, bandwidthRequirement := 10,
    latencyRequirement := 50, reliabilityRequirement := 9/10,
    duration := 60, arrivalTime := 0, priority := 5 }

/-- BEST_EFFORT flow used by the safe-trace witness. -/
def frC1b : FlowRequest :=
  { flowId := "f2", source := (0, 0), destination := (0, 0),
    qosClass := .bestEffort, bandwidthRequirement := 10,
    latencyRequirement := 50, reliabilityRequirement := 9/10,
    duration := 60, arrivalTime := 0, priority := 5 }

/-- Network with one directed link (0,1) of capacity 5 Mbps. -/
def nsC1 : NetworkState :=
  { satellites := [], topology := [], linkUtilization := [],
    linkCapacity := [((0, 1), 5)], queueLengths := [] }

theorem allocInv_empty (ns : NetworkState) : AllocInv ns {} := by
  intro fid info h
  rw [show ({} : AllocState).active = [] from rfl, dfind_nil] at h
  exact absurd h (by simp)

theorem allocNonneg_empty : AllocNonneg {} := by
  intro fid info h
  rw [show ({} : AllocState).active = [] from rfl, dfind_nil] at h
  exact absurd h (by simp)

theorem nsC1_cap_nonneg : ∀ l c, dfind nsC1.linkCapacity l = some c → 0 ≤ c := by
  intro l c h
  rw [show nsC1.linkCapacity = [((0, 1), 5)] from rfl, dfind_cons] at h
  by_cases hl : ((0, 1) : Nat × Nat) = l
  · rw [if_pos hl] at h
    injection h with h
    rw [← h]
    norm_num
  · rw [if_neg hl] at h
    rw [dfind_nil] at h
    exact absurd h (by simp)

/-- The allocation record the counterexample run commits. -/
def c1OutInfo : AllocInfo :=
  { bandwidth := 10, route := [0, 1], qosClass := .critical, minBandwidth := 10 }

/-- The allocator state after the counterexample run. -/
def c1OutState : AllocState :=
  { active := [("f1", c1OutInfo)], linkAlloc := [((0, 1), 10)] }

/-- C1 counterexample: a single allocate call on a fresh allocator — a
CRITICAL flow requesting 10 Mbps over the one link of capacity 5, with
target 5 — passes the feasibility check, then the floor boost commits
10 Mbps: link_allocations[(0,1)] = 10 > capacity 5 while the allocation
is active and crosses that link.  This refutes the claim as stated. -/
theorem c1_capacity_counterexample :
    (bwAllocate {} frC1 [0, 1] 5 nsC1 {}).1 = 10
    ∧ dfind (bwAllocate {} frC1 [0, 1] 5 nsC1 {}).2.active "f1" = some c1OutInfo
    ∧ c1OutInfo.route = [0, 1]
    ∧ dfind nsC1.linkCapacity (0, 1) = some 5
    ∧ dget (bwAllocate {} frC1 [0, 1] 5 nsC1 {}).2.linkAlloc (0, 1) 0 = 10
    ∧ ¬ (dget (bwAllocate {} frC1 [0, 1] 5 nsC1 {}).2.linkAlloc (0, 1) 0 ≤ 5) := by
  have hrun : bwAllocate {} frC1 [0, 1] 5 nsC1 {} = (10, c1OutState) := by
    norm_num [bwAllocate, isPathFeasible, calcFeasibleBandwidth, applyQosPolicy,
      reclaimBandwidth, reclaimGo, sortActive, applyFairnessConstraint,
      executeAllocation, minQosBandwidth, qosFloorFrac, qosWeight, linkPairs,
      pyRound, dget, dfind, dset, dremove, List.find?, frC1, nsC1,
      c1OutState, c1OutInfo]
  rw [hrun]
  refine ⟨rfl, ?_, rfl, ?_, ?_, ?_⟩
  · rw [show ((10 : ℚ), c1OutState).2.active = [("f1", c1OutInfo)] from rfl,
      dfind_cons]
    norm_num
  · rw [show nsC1.linkCapacity = [((0, 1), 5)] from rfl, dfind_cons]
    norm_num
  · rw [show ((10 : ℚ), c1OutState).2.linkAlloc = [((0, 1), (10 : ℚ))] from rfl,
      dget_eq_dfind, dfind_cons]
    norm_num
  · rw [show ((10 : ℚ), c1OutState).2.linkAlloc = [((0, 1), (10 : ℚ))] from rfl,
      dget_eq_dfind, dfind_cons]
    norm_num

theorem c1_safe_trace_concrete :
    safeAllocOps {} nsC1 {}
      [AllocOp.alloc frC1b [0, 1] 5, AllocOp.dealloc "f2"] = true := by
  norm_num [safeAllocOps, safeAllocOp, allocStep, bwAllocate, isPathFeasible,
    calcFeasibleBandwidth, applyQosPolicy, reclaimBandwidth, reclaimGo,
    sortActive, applyFairnessConstraint, executeAllocation, deallocateFlow,
    minQosBandwidth, qosFloorFrac, qosWeight, linkPairs, pyRound,
    dget, dfind, dset, dremove, List.find?, List.Nodup, frC1b, nsC1]

/-- Witness for the amended C1 on a concrete safe trace: one BEST_EFFORT
allocation of 5 Mbps over the capacity-5 link followed by its release. -/
theorem c1_link_capacity_invariant_witness :
    safeAllocOps {} nsC1 {}
        [AllocOp.alloc frC1b [0, 1] 5, AllocOp.dealloc "f2"] = true
    ∧ AllocInv nsC1 (runAllocOps {} nsC1 {}
        [AllocOp.alloc frC1b [0, 1] 5, AllocOp.dealloc "f2"]) :=
  ⟨c1_safe_trace_concrete,
   c1_link_capacity_invariant {} nsC1 _ {} nsC1_cap_nonneg (allocInv_empty nsC1)
     allocNonneg_empty c1_safe_trace_concrete⟩

/- ## DSROQ controller (src/src/dsroq/dsroq_controller.py) -/

/-- `_find_nearest_satellite` (shared by DSROQController and MCTSRouter):
nearest active satellite by Euclidean lat/lon distance, strict-less update
from an infinite initial distance.  `sqrtq` stands for `np.sqrt`
(irrational in general); every theorem holds for all `sqrtq`. -/
def findNearestSatellite (sqrtq : ℚ → ℚ) (loc : ℚ × ℚ) (ns : NetworkState) :
    Option Nat :=
  (ns.satellites.foldl
    (fun (acc : Option ℚ × Option Nat) sat =>
      if sat.active = false then acc
      else
        let d := sqrtq ((loc.1 - sat.lat) ^ 2 + (loc.2 - sat.lon) ^ 2)
        match acc.1 with
        | none => (some d, some sat.sid)
        | some m => if d < m then (some d, some sat.sid) else acc)
    (none, none)).2

/-- The running-minimum loop (starting from infinity, modeled as `none`)
shared by the bottleneck computations. -/
def minOptFold (f : (Nat × Nat) → ℚ) : List (Nat × Nat) → Option ℚ → Option ℚ
  | [], m => m
  | l :: L, m =>
    minOptFold f L
      (match m with
       | none => some (f l)
       | some x => some (min x (f l)))

/-- Per-link availability `capacity * (1 - utilization)` used by
`_get_path_available_bandwidth`. -/
def linkAvail (ns : NetworkState) (l : Nat × Nat) : ℚ :=
  dget ns.linkCapacity l 0 * (1 - dget ns.linkUtilization l 0)

/-- `DSROQController._get_path_available_bandwidth`: bottleneck of
capacity * (1 - utilization) over the route's links, clamped at 0;
routes shorter than two nodes yield 0. -/
def getPathAvailableBandwidth (route : List Nat) (ns : NetworkState) : ℚ :=
  if route.length < 2 then 0
  else
    match minOptFold (linkAvail ns) (linkPairs route) none with
    | none => 0
    | some x => max 0 x

/-- `DSROQController._update_network_state`: for each route link present in
link_capacity, utilization grows by bandwidth/capacity (0 when capacity is
not positive), clamped at 1; each route node's queue grows by
bandwidth * 0.1. -/
def updateNetworkStateNS (route : List Nat) (bw : ℚ) (ns : NetworkState) :
    NetworkState :=
  { ns with
    linkUtilization := (linkPairs route).foldl
      (fun lu l =>
        match dfind ns.linkCapacity l with
        | none => lu
        | some c =>
          dset lu l (min 1 (dget lu l 0 + (if 0 < c then bw / c else 0))))
      ns.linkUtilization,
    queueLengths := route.foldl
      (fun ql n => dset ql n (dget ql n 0 + bw * (1/10)))
      ns.queueLengths }

/-- `DSROQController.deallocate`: reverse of the update, clamped at 0. -/
def deallocNS (route : List Nat) (bw : ℚ) (ns : NetworkState) : NetworkState :=
  { ns with
    linkUtilization := (linkPairs route).foldl
      (fun lu l =>
        match dfind ns.linkCapacity l with
        | none => lu
        | some c =>
          dset lu l (max 0 (dget lu l 0 - (if 0 < c then bw / c else 0))))
      ns.linkUtilization,
    queueLengths := route.foldl
      (fun ql n => dset ql n (max 0 (dget ql n 0 - bw * (1/10))))
      ns.queueLengths }

/-- `AllocationResult` of state.py as produced by process_user_request. -/
structure DsroqAllocationResult where
  flowId : String
  route : List Nat
  allocatedBandwidth : ℚ
  expectedLatency : ℚ
  expectedReliability : ℚ
  allocationSuccess : Bool
  allocationTime : ℚ
  resourceCost : ℚ
  deriving DecidableEq

/-- Per-hop latency of `_estimate_latency`: propagation (3D distance /
300000 km/s in ms) plus 1 ms processing; `none` models the StopIteration
raised by `next(...)` when a satellite id is missing. -/
def hopLatency (sqrtq : ℚ → ℚ) (ns : NetworkState) (a b : Nat) : Option ℚ :=
  match ns.satellites.find? (fun s => s.sid = a),
        ns.satellites.find? (fun s => s.sid = b) with
  | some s1, some s2 =>
    some (sqrtq ((s1.x - s2.x) ^ 2 + (s1.y - s2.y) ^ 2 + (s1.z - s2.z) ^ 2)
      / 300000 * 1000 + 1)
  | _, _ => none

/-- `DSROQController._estimate_latency`. -/
def estimateLatencyOpt (sqrtq : ℚ → ℚ) (route : List Nat) (ns : NetworkState) :
    Option ℚ :=
  if route.length < 2 then some 0
  else
    (linkPairs route).foldl
      (fun acc l =>
        match acc, hopLatency sqrtq ns l.1 l.2 with
        | some t, some h => some (t + h)
        | _, _ => none)
      (some 0)

/-- `DSROQController._convert_to_flow_request` (`timeTag` stands for the
int(time.time()) suffix of the generated flow id); `none` models the
IndexError when the nearest id is used as an out-of-range list index. -/
def convertToFlowRequest (sqrtq : ℚ → ℚ) (timeTag : String) (u : UserRequest)
    (ns : NetworkState) : Option FlowRequest :=
  let fid := "flow_" ++ u.userId ++ "_" ++ timeTag
  match findNearestSatellite sqrtq (u.userLat, u.userLon) ns with
  | none => some (toFlowRequest u fid (0, 0))
  | some sid =>
    match ns.satellites.get? sid with
    | some sat => some (toFlowRequest u fid (sat.lat, sat.lon))
    | none => none

/-- `DSROQController.allocate_bandwidth`: 0 when the path has no available
bandwidth (without touching the scheduler); else the Lyapunov rate limit
capped by path availability and the flow's requirement. -/
def allocateBandwidth (fr : FlowRequest) (route : List Nat) (ns : NetworkState)
    (sch : SchedulerState) : ℚ × SchedulerState :=
  let available := getPathAvailableBandwidth route ns
  if available ≤ 0 then (0, sch)
  else
    let r := scheduleFlow sch fr route
    (min (min r.1.rateLimitMbps available) fr.bandwidthRequirement, r.2)

/-- `DSROQController.process_user_request`.  The MCTS route search is
abstracted as the `routeResult` argument (its randomness and wall-clock
budget are outside a pure embedding; its contract is modeled separately in
the MCTS section); `now` stands for time.time(). -/
def processUserRequest (sqrtq : ℚ → ℚ) (routeResult : Option (List Nat))
    (timeTag : String) (now : ℚ) (u : UserRequest) (ns : NetworkState)
    (sch : SchedulerState) :
    Option DsroqAllocationResult × NetworkState × SchedulerState :=
  match convertToFlowRequest sqrtq timeTag u ns with
  | none => (none, ns, sch)
  | some fr =>
    match routeResult with
    | none => (none, ns, sch)
    | some route =>
      let a := allocateBandwidth fr route ns sch
      if a.1 ≤ 0 then (none, ns, a.2)
      else
        match estimateLatencyOpt sqrtq route ns with
        | none => (none, ns, a.2)
        | some lat =>
          (some { flowId := fr.flowId, route := route,
                  allocatedBandwidth := a.1, expectedLatency := lat,
                  expectedReliability := max 0 (min 1 (1 - (route.length : ℚ) * (1/100))),
                  allocationSuccess := true, allocationTime := now,
                  resourceCost := max 0 ((route.length : ℚ) * (1/10)) },
           updateNetworkStateNS route a.1 ns, a.2)

/-- `DSROQController.deallocate` applied to an AllocationResult. -/
def dsroqDeallocate (res : DsroqAllocationResult) (ns : NetworkState) :
    NetworkState :=
  deallocNS res.route res.allocatedBandwidth ns

theorem minOptFold_le (f : (Nat × Nat) → ℚ) :
    ∀ (L : List (Nat × Nat)) (m : Option ℚ) (v : ℚ),
      minOptFold f L m = some v →
      (∀ l ∈ L, v ≤ f l) ∧ (∀ x, m = some x → v ≤ x)
  | [], m, v, h => by
    refine ⟨by simp, ?_⟩
    intro x hx
    rw [hx] at h
    injection h with h
    rw [h]
  | l :: L, m, v, h => by
    cases m with
    | none =>
      have ih := minOptFold_le f L (some (f l)) v h
      refine ⟨?_, ?_⟩
      · intro l' hl'
        rcases List.mem_cons.mp hl' with he | hm
        · subst he
          exact ih.2 _ rfl
        · exact ih.1 l' hm
      · intro x hx
        exact absurd hx (by simp)
    | some x =>
      have ih := minOptFold_le f L (some (min x (f l))) v h
      refine ⟨?_, ?_⟩
      · intro l' hl'
        rcases List.mem_cons.mp hl' with he | hm
        · subst he
          exact le_trans (ih.2 _ rfl) (min_le_right x (f l'))
        · exact ih.1 l' hm
      · intro y hy
        injection hy with hy
        rw [← hy]
        exact le_trans (ih.2 _ rfl) (min_le_left x (f l))

/-- Per-link lower bound on availability implied by a positive path
bottleneck. -/
theorem gpab_per_link (route : List Nat) (ns : NetworkState) (bw : ℚ)
    (hbw : 0 < bw) (hle : bw ≤ getPathAvailableBandwidth route ns) :
    ∀ l ∈ linkPairs route, bw ≤ linkAvail ns l := by
  intro l hl
  unfold getPathAvailableBandwidth at hle
  by_cases hlen : route.length < 2
  · rw [if_pos hlen] at hle
    exact absurd (lt_of_lt_of_le hbw hle) (lt_irrefl 0)
  · rw [if_neg hlen] at hle
    cases hm : minOptFold (linkAvail ns) (linkPairs route) none with
    | none => rw [hm] at hle; exact absurd (lt_of_lt_of_le hbw hle) (lt_irrefl 0)
    | some v =>
      rw [hm] at hle
      have hv : bw ≤ v := by
        rcases le_max_iff.mp hle with h0 | hv
        · exact absurd (lt_of_lt_of_le hbw h0) (lt_irrefl 0)
        · exact hv
      exact le_trans hv ((minOptFold_le (linkAvail ns) (linkPairs route) none v hm).1 l hl)

/-- A default-0 lookup inherits any bound holding for all stored values
and for 0. -/
theorem dget_bound [DecidableEq α] (d : List (α × ℚ)) (k : α) (P : ℚ → Prop)
    (hall : ∀ p ∈ d, P p.2) (h0 : P 0) : P (dget d k 0) := by
  unfold dget
  cases hf : d.find? (fun p => p.1 = k) with
  | none => exact h0
  | some p => exact hall p (List.mem_of_find?_eq_some hf)

/-- Value of `_update_network_state`'s link loop at any key, for a
duplicate-free link list. -/
theorem dget_updLinkFold (cap : List ((Nat × Nat) × ℚ)) (bw : ℚ) :
    ∀ (L : List (Nat × Nat)) (lu : List ((Nat × Nat) × ℚ)) (k : Nat × Nat),
      L.Nodup →
      dget (L.foldl (fun lu l =>
        match dfind cap l with
        | none => lu
        | some c =>
          dset lu l (min 1 (dget lu l 0 + (if 0 < c then bw / c else 0)))) lu) k 0
      = (if k ∈ L then
          (match dfind cap k with
           | none => dget lu k 0
           | some c => min 1 (dget lu k 0 + (if 0 < c then bw / c else 0)))
         else dget lu k 0)
  | [], lu, k, _ => by simp
  | l₀ :: L, lu, k, h => by
    rw [List.foldl_cons]
    have hnd := List.nodup_cons.mp h
    rw [dget_updLinkFold cap bw L _ k hnd.2]
    by_cases he : k = l₀
    · subst he
      rw [if_neg hnd.1, if_pos (List.mem_cons_self k L)]
      cases hc : dfind cap k with
      | none => rfl
      | some c =>
        dsimp only
        rw [dget_dset_same]
    · have hmem : (k ∈ l₀ :: L) ↔ (k ∈ L) := by
        simp [List.mem_cons, he]
      cases hc : dfind cap l₀ with
      | none =>
        dsimp only
        by_cases hm : k ∈ L
        · rw [if_pos hm, if_pos (hmem.mpr hm)]
        · rw [if_neg hm, if_neg (fun hx => hm (hmem.mp hx))]
      | some c =>
        dsimp only
        rw [dget_dset_other _ _ _ _ _ he]
        by_cases hm : k ∈ L
        · rw [if_pos hm, if_pos (hmem.mpr hm)]
        · rw [if_neg hm, if_neg (fun hx => hm (hmem.mp hx))]

/-- Value of `deallocate`'s link loop at any key, for a duplicate-free link
list. -/
theorem dget_subLinkFold (cap : List ((Nat × Nat) × ℚ)) (bw : ℚ) :
    ∀ (L : List (Nat × Nat)) (lu : List ((Nat × Nat) × ℚ)) (k : Nat × Nat),
      L.Nodup →
      dget (L.foldl (fun lu l =>
        match dfind cap l with
        | none => lu
        | some c =>
          dset lu l (max 0 (dget lu l 0 - (if 0 < c then bw / c else 0)))) lu) k 0
      = (if k ∈ L then
          (match dfind cap k with
           | none => dget lu k 0
           | some c => max 0 (dget lu k 0 - (if 0 < c then bw / c else 0)))
         else dget lu k 0)
  | [], lu, k, _ => by simp
  | l₀ :: L, lu, k, h => by
    rw [List.foldl_cons]
    have hnd := List.nodup_cons.mp h
    rw [dget_subLinkFold cap bw L _ k hnd.2]
    by_cases he : k = l₀
    · subst he
      rw [if_neg hnd.1, if_pos (List.mem_cons_self k L)]
      cases hc : dfind cap k with
      | none => rfl
      | some c =>
        dsimp only
        rw [dget_dset_same]
    · have hmem : (k ∈ l₀ :: L) ↔ (k ∈ L) := by
        simp [List.mem_cons, he]
      cases hc : dfind cap l₀ with
      | none =>
        dsimp only
        by_cases hm : k ∈ L
        · rw [if_pos hm, if_pos (hmem.mpr hm)]
        · rw [if_neg hm, if_neg (fun hx => hm (hmem.mp hx))]
      | some c =>
        dsimp only
        rw [dget_dset_other _ _ _ _ _ he]
        by_cases hm : k ∈ L
        · rw [if_pos hm, if_pos (hmem.mpr hm)]
        · rw [if_neg hm, if_neg (fun hx => hm (hmem.mp hx))]

/-- Value of `_update_network_state`'s queue loop: each node gains the
increment once per occurrence on the route. -/
theorem dget_addQueueFold (δ : ℚ) :
    ∀ (route : List Nat) (ql : List (Nat × ℚ)) (n : Nat),
      dget (route.foldl (fun ql m => dset ql m (dget ql m 0 + δ)) ql) n 0
        = dget ql n 0 + (route.count n : ℚ) * δ
  | [], ql, n => by simp
  | m :: route, ql, n => by
    rw [List.foldl_cons, dget_addQueueFold δ route _ n]
    by_cases he : n = m
    · subst he
      rw [dget_dset_same, List.count_cons_self]
      push_cast
      ring
    · rw [dget_dset_other _ _ _ _ _ he,
        List.count_cons_of_ne (fun hc => he hc)]

/-- Value of `deallocate`'s queue loop when the clamps never bind. -/
theorem dget_subQueueFold (δ : ℚ) (hδ : 0 ≤ δ) :
    ∀ (route : List Nat) (ql : List (Nat × ℚ)) (n : Nat),
      (route.count n : ℚ) * δ ≤ dget ql n 0 →
      dget (route.foldl (fun ql m => dset ql m (max 0 (dget ql m 0 - δ))) ql) n 0
        = dget ql n 0 - (route.count n : ℚ) * δ
  | [], ql, n, _ => by simp
  | m :: route, ql, n, hc => by
    rw [List.foldl_cons]
    by_cases he : n = m
    · subst he
      rw [List.count_cons_self] at hc
      push_cast at hc
      have hcount : (0 : ℚ) ≤ (route.count n : ℚ) := by positivity
      have h1 : (route.count n : ℚ) * δ ≤ dget ql n 0 - δ := by nlinarith
      have hmax : max 0 (dget ql n 0 - δ) = dget ql n 0 - δ := by
        apply max_eq_right
        nlinarith
      have hstep : dget (dset ql n (max 0 (dget ql n 0 - δ))) n 0
          = dget ql n 0 - δ := by rw [dget_dset_same, hmax]
      rw [dget_subQueueFold δ hδ route _ n (by rw [hstep]; exact h1), hstep,
        List.count_cons_self]
      push_cast
      ring
    · rw [List.count_cons_of_ne (fun hx => he hx)] at hc
      have hstep : dget (dset ql m (max 0 (dget ql m 0 - δ))) n 0
          = dget ql n 0 := dget_dset_other _ _ _ _ _ he
      rw [dget_subQueueFold δ hδ route _ n (by rw [hstep]; exact hc), hstep,
        List.count_cons_of_ne (fun hx => he hx)]

/-- Core of C3: with in-range utilizations, nonnegative queues, a
duplicate-free link list and a committed bandwidth within the path's
available bandwidth, `deallocate` exactly undoes `_update_network_state`
on both maps. -/
theorem update_dealloc_roundtrip (route : List Nat) (bw : ℚ) (ns : NetworkState)
    (hU : ∀ p ∈ ns.linkUtilization, 0 ≤ p.2 ∧ p.2 ≤ 1)
    (hQ : ∀ p ∈ ns.queueLengths, 0 ≤ p.2)
    (hnd : (linkPairs route).Nodup)
    (hbw : 0 < bw)
    (hle : bw ≤ getPathAvailableBandwidth route ns) :
    (∀ k, dget (deallocNS route bw (updateNetworkStateNS route bw ns)).linkUtilization k 0
        = dget ns.linkUtilization k 0)
    ∧ (∀ n, dget (deallocNS route bw (updateNetworkStateNS route bw ns)).queueLengths n 0
        = dget ns.queueLengths n 0) := by
  constructor
  · intro k
    unfold deallocNS updateNetworkStateNS
    dsimp only
    rw [dget_subLinkFold ns.linkCapacity bw (linkPairs route) _ k hnd,
      dget_updLinkFold ns.linkCapacity bw (linkPairs route) _ k hnd]
    by_cases hm : k ∈ linkPairs route
    · rw [if_pos hm, if_pos hm]
      cases hc : dfind ns.linkCapacity k with
      | none => rfl
      | some c =>
        dsimp only
        have hub := dget_bound ns.linkUtilization k (fun x => 0 ≤ x ∧ x ≤ 1)
          hU ⟨le_refl 0, by norm_num⟩
        set u := dget ns.linkUtilization k 0 with hu
        have hlink := gpab_per_link route ns bw hbw hle k hm
        unfold linkAvail at hlink
        have hcval : dget ns.linkCapacity k 0 = c := by
          rw [dget_eq_dfind, hc]
          rfl
        rw [hcval, ← hu] at hlink
        have hcpos : 0 < c := by
          by_contra hcle
          push_neg at hcle
          have h1 : (0:ℚ) ≤ 1 - u := by linarith [hub.2]
          nlinarith [hlink, hbw]
        rw [if_pos hcpos]
        have hlink' : bw ≤ (1 - u) * c := by
          have := mul_comm c (1 - u)
          linarith [hlink]
        have hfrac : bw / c ≤ 1 - u := (div_le_iff hcpos).mpr hlink'
        rw [min_eq_right (by linarith : u + bw / c ≤ 1)]
        have heq : u + bw / c - bw / c = u := by ring
        rw [heq]
        exact max_eq_right hub.1
    · rw [if_neg hm, if_neg hm]
  · intro n
    unfold deallocNS updateNetworkStateNS
    dsimp only
    have hδ : (0:ℚ) ≤ bw * (1/10) := by linarith
    have hq0 := dget_bound ns.queueLengths n (fun x => 0 ≤ x) hQ (le_refl 0)
    have hadd := dget_addQueueFold (bw * (1/10)) route ns.queueLengths n
    have hcnt : (route.count n : ℚ) * (bw * (1/10))
        ≤ dget (route.foldl (fun ql m => dset ql m (dget ql m 0 + bw * (1/10)))
            ns.queueLengths) n 0 := by
      rw [hadd]
      linarith
    rw [dget_subQueueFold (bw * (1/10)) hδ route _ n hcnt, hadd]
    ring

/-- C3: for every successful AllocationResult of
DSROQController.process_user_request on a NetworkState with utilizations in
[0,1] and nonnegative queues, immediately deallocating that result restores
the link_utilization and queue_lengths maps to their pre-allocate values
(value-for-value; the route's directed links repeat none, as MCTS routes
do). -/
theorem c3_process_deallocate_roundtrip (sqrtq : ℚ → ℚ)
    (routeResult : Option (List Nat)) (timeTag : String) (now : ℚ)
    (u : UserRequest) (ns : NetworkState) (sch : SchedulerState)
    (res : DsroqAllocationResult) (ns' : NetworkState) (sch' : SchedulerState)
    (hU : ∀ p ∈ ns.linkUtilization, 0 ≤ p.2 ∧ p.2 ≤ 1)
    (hQ : ∀ p ∈ ns.queueLengths, 0 ≤ p.2)
    (hrun : processUserRequest sqrtq routeResult timeTag now u ns sch
      = (some res, ns', sch'))
    (hnd : (linkPairs res.route).Nodup) :
    (∀ k, dget (dsroqDeallocate res ns').linkUtilization k 0
        = dget ns.linkUtilization k 0)
    ∧ (∀ n, dget (dsroqDeallocate res ns').queueLengths n 0
        = dget ns.queueLengths n 0) := by
  unfold processUserRequest at hrun
  cases hconv : convertToFlowRequest sqrtq timeTag u ns with
  | none =>
    rw [hconv] at hrun
    exact absurd (congrArg Prod.fst hrun) (by simp)
  | some fr =>
    rw [hconv] at hrun
    cases routeResult with
    | none => exact absurd (congrArg Prod.fst hrun) (by simp)
    | some route =>
      dsimp only at hrun
      by_cases hpos : (allocateBandwidth fr route ns sch).1 ≤ 0
      · rw [if_pos hpos] at hrun
        exact absurd (congrArg Prod.fst hrun) (by simp)
      · rw [if_neg hpos] at hrun
        cases hlat : estimateLatencyOpt sqrtq route ns with
        | none =>
          rw [hlat] at hrun
          exact absurd (congrArg Prod.fst hrun) (by simp)
        | some lat =>
          rw [hlat] at hrun
          have hres := congrArg Prod.fst hrun
          have hstate := congrArg (fun p => p.2.1) hrun
          dsimp only at hres hstate
          injection hres with hres
          have hroute : res.route = route := by rw [← hres]
          have hbwres : res.allocatedBandwidth
              = (allocateBandwidth fr route ns sch).1 := by rw [← hres]
          have hbwpos : 0 < (allocateBandwidth fr route ns sch).1 :=
            lt_of_not_ge (fun hge => hpos hge)
          have hble : (allocateBandwidth fr route ns sch).1
              ≤ getPathAvailableBandwidth route ns := by
            by_cases ha : getPathAvailableBandwidth route ns ≤ 0
            · exfalso
              have hz : (allocateBandwidth fr route ns sch).1 = 0 := by
                unfold allocateBandwidth
                dsimp only
                rw [if_pos ha]
              exact absurd (hz ▸ hbwpos) (lt_irrefl 0)
            · have hz : (allocateBandwidth fr route ns sch).1
                  = min (min (scheduleFlow sch fr route).1.rateLimitMbps
                      (getPathAvailableBandwidth route ns))
                    fr.bandwidthRequirement := by
                unfold allocateBandwidth
                dsimp only
                rw [if_neg ha]
              rw [hz]
              exact le_trans (min_le_left _ _) (min_le_right _ _)
          have hrt := update_dealloc_roundtrip route
            (allocateBandwidth fr route ns sch).1 ns hU hQ
            (hroute ▸ hnd) hbwpos hble
          unfold dsroqDeallocate
          rw [hroute, hbwres, ← hstate]
          exact hrt

/-- Concrete network for the DSROQ witnesses: two active satellites and
one directed idle link (0,1) of capacity 50 Mbps. -/
def nsC3 : NetworkState :=
  { satellites := [⟨0, 0, 0, true, 0, 0, 0⟩, ⟨1, 1, 1, true, 0, 0, 0⟩],
    topology := [[0, 1], [1, 0]],
    linkUtilization := [],
    linkCapacity := [((0, 1), 50)],
    queueLengths := [] }

/-- The flow request process_user_request builds for uW on nsC3. -/
def frC3 : FlowRequest :=
  { flowId := "flow_u1_t0", source := (0, 0), destination := (0, 0),
    qosClass := .bestEffort, bandwidthRequirement := 10,
    latencyRequirement := 50, reliabilityRequirement := 9/10,
    duration := 60, arrivalTime := 0, priority := 5 }

/-- The successful allocation result of the C3 witness run. -/
def resC3 : DsroqAllocationResult :=
  { flowId := "flow_u1_t0", route := [0, 1], allocatedBandwidth := 10,
    expectedLatency := 1, expectedReliability := 49/50,
    allocationSuccess := true, allocationTime := 0, resourceCost := 1/5 }

theorem c3_concrete_run :
    processUserRequest (fun q => q) (some [0, 1]) "t0" 0 uW nsC3 {}
      = (some resC3, updateNetworkStateNS [0, 1] 10 nsC3,
         { queueStates := [(0, 1), (1, 1)] }) := by
  have hconv : convertToFlowRequest (fun q => q) "t0" uW nsC3 = some frC3 := by
    norm_num [convertToFlowRequest, findNearestSatellite, toFlowRequest,
      qosClassOfString, nsC3, uW, frC3, String.reduceAppend]
    decide
  have halloc : allocateBandwidth frC3 [0, 1] nsC3 {}
      = (10, { queueStates := [(0, 1), (1, 1)] }) := by
    norm_num [allocateBandwidth, getPathAvailableBandwidth, minOptFold,
      linkAvail, linkPairs, scheduleFlow, updateQueueStates,
      calcDriftPlusPenalty, calcQoePenalty, calcPositioningPenalty,
      calcPathThroughput, serviceRate, makeSchedulingDecision, maxQueueVal,
      dget, dfind, dset, List.find?, frC3, nsC3]
  have hlat : estimateLatencyOpt (fun q => q) [0, 1] nsC3 = some 1 := by
    norm_num [estimateLatencyOpt, hopLatency, linkPairs, nsC3, List.find?]
  unfold processUserRequest
  rw [hconv]
  dsimp only
  rw [halloc]
  norm_num [hlat, resC3, frC3]

theorem c3_process_deallocate_roundtrip_witness :
    ((∀ p ∈ nsC3.linkUtilization, 0 ≤ p.2 ∧ p.2 ≤ 1)
      ∧ (∀ p ∈ nsC3.queueLengths, 0 ≤ p.2)
      ∧ (linkPairs resC3.route).Nodup)
    ∧ ((∀ k, dget (dsroqDeallocate resC3
          (updateNetworkStateNS [0, 1] 10 nsC3)).linkUtilization k 0
        = dget nsC3.linkUtilization k 0)
      ∧ (∀ n, dget (dsroqDeallocate resC3
          (updateNetworkStateNS [0, 1] 10 nsC3)).queueLengths n 0
        = dget nsC3.queueLengths n 0)) :=
  ⟨⟨by simp [nsC3], by simp [nsC3], by decide⟩,
   c3_process_deallocate_roundtrip (fun q => q) (some [0, 1]) "t0" 0 uW nsC3 {}
     resC3 (updateNetworkStateNS [0, 1] 10 nsC3)
     { queueStates := [(0, 1), (1, 1)] }
     (by simp [nsC3]) (by simp [nsC3]) c3_concrete_run (by decide)⟩

/-- C4: if the route search succeeds but the bandwidth-allocation stage
yields a bandwidth ≤ 0, process_user_request returns None and the
NetworkState's link_utilization and queue_lengths maps are exactly the
input's (no partial mutation is visible). -/
theorem c4_no_partial_state_on_alloc_failure (sqrtq : ℚ → ℚ)
    (timeTag : String) (now : ℚ) (u : UserRequest) (ns : NetworkState)
    (sch : SchedulerState) (route : List Nat) (fr : FlowRequest)
    (hconv : convertToFlowRequest sqrtq timeTag u ns = some fr)
    (halloc : (allocateBandwidth fr route ns sch).1 ≤ 0) :
    (processUserRequest sqrtq (some route) timeTag now u ns sch).1 = none
    ∧ (processUserRequest sqrtq (some route) timeTag now u ns
        sch).2.1.linkUtilization = ns.linkUtilization
    ∧ (processUserRequest sqrtq (some route) timeTag now u ns
        sch).2.1.queueLengths = ns.queueLengths := by
  unfold processUserRequest
  rw [hconv]
  dsimp only
  rw [if_pos halloc]
  exact ⟨rfl, rfl, rfl⟩

/-- Network for the C4 witness: like nsC3 but the (0,1) link is missing
from link_capacity, so the path's available bandwidth is 0 and the
allocation stage yields 0. -/
def nsC4 : NetworkState :=
  { satellites := [⟨0, 0, 0, true, 0, 0, 0⟩, ⟨1, 1, 1, true, 0, 0, 0⟩],
    topology := [[0, 1], [1, 0]],
    linkUtilization := [],
    linkCapacity := [],
    queueLengths := [] }

theorem c4_no_partial_state_on_alloc_failure_witness :
    (convertToFlowRequest (fun q => q) "t0" uW nsC4 = some frC3
      ∧ (allocateBandwidth frC3 [0, 1] nsC4 {}).1 ≤ 0)
    ∧ ((processUserRequest (fun q => q) (some [0, 1]) "t0" 0 uW nsC4 {}).1 = none
      ∧ (processUserRequest (fun q => q) (some [0, 1]) "t0" 0 uW nsC4
          {}).2.1.linkUtilization = nsC4.linkUtilization
      ∧ (processUserRequest (fun q => q) (some [0, 1]) "t0" 0 uW nsC4
          {}).2.1.queueLengths = nsC4.queueLengths) := by
  have hconv : convertToFlowRequest (fun q => q) "t0" uW nsC4 = some frC3 := by
    norm_num [convertToFlowRequest, findNearestSatellite, toFlowRequest,
      qosClassOfString, nsC4, uW, frC3, String.reduceAppend]
    decide
  have halloc : (allocateBandwidth frC3 [0, 1] nsC4 {}).1 ≤ 0 := by
    norm_num [allocateBandwidth, getPathAvailableBandwidth, minOptFold,
      linkAvail, linkPairs, dget, dfind, List.find?, nsC4]
  exact ⟨⟨hconv, halloc⟩,
    c4_no_partial_state_on_alloc_failure (fun q => q) "t0" 0 uW nsC4 {} [0, 1]
      frC3 hconv halloc⟩

/- ## MCTS router (src/src/dsroq/mcts_routing.py) -/

/-- Configuration of `MCTSRouter.__init__` with the source defaults. -/
structure MctsConfig where
  iterations : Nat := 1000
  explorationConstant : ℚ := 1414/1000
  maxDepth : Nat := 10
  simulationDepth : Nat := 5
  maxHops : Nat := 8
  minLinkCapacity : ℚ := 1
  seamPenalty : ℚ := 1/2
  pathChangePenalty : ℚ := 3/10
  rerouteCooldownMs : ℚ := 5000
  lambdaPos : ℚ := 1/5
  crlbThreshold : ℚ := 50
  minVisibleBeams : Nat := 2
  minCoopSats : Nat := 2
  beamHintWeight : ℚ := 1/5
  deriving DecidableEq

/-- Mutable router state: route_history (route, timestamp) and
last_reroute_time per flow id. -/
structure RouterState where
  routeHistory : List (String × (List Nat × ℚ)) := []
  lastRerouteTime : List (String × ℚ) := []
  deriving DecidableEq

/-- `MCTSRouter._get_neighbors`: adjacency row entries equal to 1,
excluding the node itself, with available capacity
capacity * (1 - utilization) at least min_link_capacity. -/
def getNeighbors (cfg : MctsConfig) (ns : NetworkState) (sid : Nat) : List Nat :=
  (List.range ns.topology.length).filter (fun i =>
    decide (i ≠ sid)
      && decide ((ns.topology.getD sid []).getD i 0 = 1)
      && decide (cfg.minLinkCapacity ≤
          dget ns.linkCapacity (sid, i) 0 * (1 - dget ns.linkUtilization (sid, i) 0)))

theorem getNeighbors_ne (cfg : MctsConfig) (ns : NetworkState) (sid : Nat) :
    ∀ u ∈ getNeighbors cfg ns sid, u ≠ sid := by
  intro u hu
  have := (List.mem_filter.mp hu).2
  simp only [Bool.and_eq_true, decide_eq_true_eq] at this
  exact this.1.1

/-- `MCTSRouter._count_seam_crossings`: consecutive hops whose endpoint
longitudes differ by more than 30 degrees (missing satellites are skipped
via the `next(..., None)` default). -/
def countSeamCrossings (ns : NetworkState) (path : List Nat) : Nat :=
  (linkPairs path).foldl
    (fun cnt l =>
      match ns.satellites.find? (fun s => s.sid = l.1),
            ns.satellites.find? (fun s => s.sid = l.2) with
      | some s1, some s2 => if 30 < |s1.lon - s2.lon| then cnt + 1 else cnt
      | _, _ => cnt) 0

/-- `MCTSRouter._calculate_path_similarity`: distinct common nodes over the
longer length. -/
def calcPathSimilarity (p1 p2 : List Nat) : ℚ :=
  if p1.isEmpty ∨ p2.isEmpty then 0
  else ((p1.dedup.filter (fun n => p2.contains n)).length : ℚ)
    / ((max p1.length p2.length : Nat) : ℚ)

def listMaxQ : List ℚ → ℚ
  | [] => 0
  | x :: xs => xs.foldl max x

def listMinQ : List ℚ → ℚ
  | [] => 0
  | x :: xs => xs.foldl min x

/-- `MCTSRouter._evaluate_positioning_quality`: geometric lat/lon spread of
the on-path satellites, 0 when fewer than min_coop_sats are involved. -/
def evalPathPositioningQuality (cfg : MctsConfig) (ns : NetworkState)
    (path : List Nat) : ℚ :=
  if path.length < 2 then 0
  else
    let sats := ns.satellites.filter (fun s => path.contains s.sid)
    if sats.length < cfg.minCoopSats then 0
    else
      let lats := sats.map (fun s => s.lat)
      let lons := sats.map (fun s => s.lon)
      let latSpread := if lats.isEmpty then 0 else listMaxQ lats - listMinQ lats
      let lonSpread := if lons.isEmpty then 0 else listMaxQ lons - listMinQ lons
      min 1 ((latSpread + lonSpread) / 180)

/-- Reward terms 1-7 of `MCTSRouter._evaluate_path` (length penalty,
bandwidth reward, load balance, seam penalty, path-change penalty,
positioning reward, beam-hint reward).  `bh` is the beam-hint score:
`MCTSRouter._evaluate_beam_hint` is called at line 430 but defined nowhere
in the repository, so — modelled from the spec: the spec's §4.2 path
evaluation carries no beam-hint term and fixes none of its values, hence
the score is an unspecified function parameter; every theorem below holds
for all `bh`. -/
def evalPathTermsOneToSeven (bh : List Nat → NetworkState → ℚ)
    (cfg : MctsConfig) (rst : RouterState) (fr : FlowRequest)
    (ns : NetworkState) (path : List Nat) : ℚ :=
  let bwStats := (linkPairs path).foldl
    (fun (acc : Option ℚ × ℚ) l =>
      let c := dget ns.linkCapacity l 0
      let util := dget ns.linkUtilization l 0
      if 0 < c then
        ((match acc.1 with
          | none => some (c * (1 - util))
          | some x => some (min x (c * (1 - util)))), acc.2 + util)
      else acc)
    (none, 0)
  let bandwidthReward : ℚ :=
    match bwStats.1 with
    | none => 0
    | some m => min 10 (m / fr.bandwidthRequirement)
  let avgUtil : ℚ :=
    if 1 < path.length then bwStats.2 / ((path.length : ℚ) - 1) else 0
  let pathChange : ℚ :=
    if fr.flowId ≠ "" then
      match dfind rst.routeHistory fr.flowId with
      | some old =>
        if calcPathSimilarity path old.1 < 8/10 then cfg.pathChangePenalty * 5
        else 0
      | none => 0
    else 0
  let lengthPenalty : ℚ := -(path.length : ℚ) * (1/10)
  lengthPenalty
    + bandwidthReward
    + (1 - avgUtil) * 5
    - (countSeamCrossings ns path : ℚ) * cfg.seamPenalty * 10
    - pathChange
    + evalPathPositioningQuality cfg ns path * cfg.lambdaPos * 10
    + cfg.beamHintWeight * bh path ns * 10

/-- `MCTSRouter._evaluate_path`: 0 for paths shorter than two nodes, else
terms 1-7 plus the flat +20 of step 8 (which the source grants to every
path with at least two nodes — the destination is not even an argument). -/
def evaluatePath (bh : List Nat → NetworkState → ℚ) (cfg : MctsConfig)
    (rst : RouterState) (fr : FlowRequest) (ns : NetworkState)
    (path : List Nat) : ℚ :=
  if path.length < 2 then 0
  else evalPathTermsOneToSeven bh cfg rst fr ns path + 20

/-- C9 counterexample: the two-node path [0,1] evaluated with destination 2
does not end at the destination, yet its reward includes the flat +20 term
(and 20 ≠ 0, so the reward differs from the claimed destination-gated
value). -/
theorem c9_destination_reward_counterexample :
    ([0, 1].getLast? = some 2 → False)
    ∧ evaluatePath (fun _ _ => 0) {} {} frC3 nsC3 [0, 1]
        = evalPathTermsOneToSeven (fun _ _ => 0) {} {} frC3 nsC3 [0, 1] + 20
    ∧ ((20 : ℚ) ≠ 0) := by
  refine ⟨by decide, ?_, by norm_num⟩
  unfold evaluatePath
  rw [if_neg (by norm_num)]

/-- C9 (amended): the +20 term of `_evaluate_path` is included exactly when
the evaluated path has at least two nodes, irrespective of the destination:
the reward always equals terms 1-7 plus a +20 gated only on the length. -/
theorem c9_flat_reward_iff_two_nodes (bh : List Nat → NetworkState → ℚ)
    (cfg : MctsConfig) (rst : RouterState) (fr : FlowRequest)
    (ns : NetworkState) (path : List Nat) :
    evaluatePath bh cfg rst fr ns path
      = (if path.length < 2 then 0 else evalPathTermsOneToSeven bh cfg rst fr ns path)
        + (if 2 ≤ path.length then (20 : ℚ) else 0) := by
  unfold evaluatePath
  by_cases h : path.length < 2
  · rw [if_pos h, if_pos h, if_neg (by omega)]
    norm_num
  · rw [if_neg h, if_neg h, if_pos (by omega)]

theorem dfind_mem [DecidableEq α] {d : List (α × β)} {k : α} {v : β}
    (h : dfind d k = some v) : (k, v) ∈ d := by
  unfold dfind at h
  cases hf : d.find? (fun p => p.1 = k) with
  | none => rw [hf] at h; exact absurd h (by simp)
  | some pr =>
    rw [hf] at h
    obtain ⟨a, b⟩ := pr
    have hk : a = k := by simpa using List.find?_some hf
    have hv : b = v := by simpa using h
    subst hk; subst hv
    exact List.mem_of_find?_eq_some hf

/-- Steps 1-4 of `MCTSRouter.find_route` after the cooldown check: nearest
source/destination satellites, the src = dst single-node early return, the
MCTS search (the `searchResult` oracle: the real search is randomized and
wall-clock bounded), and history recording for routes longer than one
node when the flow id is non-empty. -/
def findRouteCore (searchResult : Nat → Nat → Option (List Nat))
    (sqrtq : ℚ → ℚ) (rst : RouterState) (nowMs : ℚ)
    (fr : FlowRequest) (ns : NetworkState) : Option (List Nat) × RouterState :=
  match findNearestSatellite sqrtq fr.source ns,
        findNearestSatellite sqrtq fr.destination ns with
  | some s, some d =>
    if s = d then (some [s], rst)
    else
      match searchResult s d with
      | some route =>
        if 1 < route.length then
          (some route,
            if fr.flowId ≠ "" then
              { routeHistory := dset rst.routeHistory fr.flowId (route, nowMs),
                lastRerouteTime := dset rst.lastRerouteTime fr.flowId nowMs }
            else rst)
        else (none, rst)
      | none => (none, rst)
  | _, _ => (none, rst)

/-- `MCTSRouter.find_route`: if the flow id is non-empty, has a recorded
last reroute time within the cooldown window, and has a recorded route,
that route is returned unchanged; otherwise the search pipeline runs. -/
def findRoute (searchResult : Nat → Nat → Option (List Nat)) (sqrtq : ℚ → ℚ)
    (cfg : MctsConfig) (rst : RouterState) (nowMs : ℚ) (fr : FlowRequest)
    (ns : NetworkState) : Option (List Nat) × RouterState :=
  match (if fr.flowId ≠ "" then dfind rst.lastRerouteTime fr.flowId else none) with
  | some tLast =>
    if nowMs - tLast < cfg.rerouteCooldownMs then
      match dfind rst.routeHistory fr.flowId with
      | some old => (some old.1, rst)
      | none => findRouteCore searchResult sqrtq rst nowMs fr ns
    else findRouteCore searchResult sqrtq rst nowMs fr ns
  | none => findRouteCore searchResult sqrtq rst nowMs fr ns

/-- The search pipeline runs whenever the cooldown cache replay of
find_route lines 123-131 does not fire: empty flow id, no recorded
last-reroute time, an expired cooldown, or no recorded route. -/
theorem findRoute_runs_core
    (searchResult : Nat -> Nat -> Option (List Nat)) (sqrtq : ℚ -> ℚ)
    (cfg : MctsConfig) (rst : RouterState) (nowMs : ℚ) (fr : FlowRequest)
    (ns : NetworkState)
    (hfresh : fr.flowId = "" ∨ dfind rst.lastRerouteTime fr.flowId = none
      ∨ (∃ tLast, dfind rst.lastRerouteTime fr.flowId = some tLast
          ∧ cfg.rerouteCooldownMs ≤ nowMs - tLast)
      ∨ dfind rst.routeHistory fr.flowId = none) :
    findRoute searchResult sqrtq cfg rst nowMs fr ns
      = findRouteCore searchResult sqrtq rst nowMs fr ns := by
  unfold findRoute
  rcases hfresh with h | h | ⟨tLast, hsome, hge⟩ | h
  · rw [if_neg (by simp [h])]
  · have hscrut : (if fr.flowId ≠ "" then dfind rst.lastRerouteTime fr.flowId
        else none) = none := by
      by_cases hid : fr.flowId ≠ ""
      · rw [if_pos hid]; exact h
      · rw [if_neg hid]
    rw [hscrut]
  · by_cases hid : fr.flowId ≠ ""
    · rw [if_pos hid]
      simp only [hsome]
      rw [if_neg (not_lt.mpr hge)]
    · rw [if_neg hid]
  · by_cases hid : fr.flowId ≠ ""
    · rw [if_pos hid]
      rcases hlr : dfind rst.lastRerouteTime fr.flowId with _ | tLast
      · simp only [hlr]
      · simp only [hlr]
        by_cases hw : nowMs - tLast < cfg.rerouteCooldownMs
        · rw [if_pos hw]
          simp only [h]
        · rw [if_neg hw]
    · rw [if_neg hid]

/-- C10 (amended): for every request that does not hit the cooldown cache
replay (empty flow id, no recorded last-reroute time, expired cooldown,
or no recorded route) whose source and destination both map to the same
nearest satellite s, find_route returns the one-element route [s] with the
router state unchanged, and downstream [s] is infeasible everywhere:
_is_path_feasible is false, _get_path_available_bandwidth is 0,
BandwidthAllocator.allocate commits nothing, and
DSROQController.allocate_bandwidth grants 0 bandwidth. Inside the cooldown
window with a cached route the original claim is false: find_route replays
the cached multi-hop route and the request can be allocated bandwidth. -/
theorem c10_same_satellite_unallocatable_amended
    (searchResult : Nat -> Nat -> Option (List Nat)) (sqrtq : ℚ -> ℚ)
    (cfg : MctsConfig) (rst : RouterState) (nowMs : ℚ) (fr : FlowRequest)
    (ns : NetworkState) (s : Nat) (target : ℚ) (acfg : AllocatorConfig)
    (ast : AllocState) (sch : SchedulerState)
    (hfresh : fr.flowId = "" ∨ dfind rst.lastRerouteTime fr.flowId = none
      ∨ (∃ tLast, dfind rst.lastRerouteTime fr.flowId = some tLast
          ∧ cfg.rerouteCooldownMs ≤ nowMs - tLast)
      ∨ dfind rst.routeHistory fr.flowId = none)
    (hsrc : findNearestSatellite sqrtq fr.source ns = some s)
    (hdst : findNearestSatellite sqrtq fr.destination ns = some s) :
    findRoute searchResult sqrtq cfg rst nowMs fr ns = (some [s], rst)
    ∧ isPathFeasible [s] target ns ast = false
    ∧ getPathAvailableBandwidth [s] ns = 0
    ∧ bwAllocate acfg fr [s] target ns ast = (0, ast)
    ∧ allocateBandwidth fr [s] ns sch = (0, sch) := by
  refine ⟨?_, rfl, rfl, rfl, ?_⟩
  · rw [findRoute_runs_core searchResult sqrtq cfg rst nowMs fr ns hfresh]
    unfold findRouteCore
    rw [hsrc, hdst]
    simp
  · simp [allocateBandwidth, getPathAvailableBandwidth]

theorem nearest_nsC3_origin :
    findNearestSatellite (fun q => q) (0, 0) nsC3 = some 0 := by
  norm_num [findNearestSatellite, nsC3]


/-- Router state of the C10 counterexample: flow flow_u1_t0 holds a cached
two-hop route recorded at time 0 and a last reroute at time 0. -/
def rstC10 : RouterState :=
  { routeHistory := [("flow_u1_t0", ([0, 1], 0))],
    lastRerouteTime := [("flow_u1_t0", 0)] }

/-- C10 counterexample to the original claim: at time 1000 ms (inside the
5000 ms cooldown), a request whose source and destination both map to
satellite 0 gets the cached multi-hop route [0,1] back, not [0], and that
request is allocated 10 Mbps by allocate_bandwidth. -/
theorem c10_cached_route_counterexample :
    findNearestSatellite (fun q => q) frC3.source nsC3 = some 0
    ∧ findNearestSatellite (fun q => q) frC3.destination nsC3 = some 0
    ∧ findRoute (fun _ _ => none) (fun q => q) {} rstC10 1000 frC3 nsC3
        = (some [0, 1], rstC10)
    ∧ some [0, 1] ≠ some ([0] : List Nat)
    ∧ allocateBandwidth frC3 [0, 1] nsC3 {}
        = (10, { queueStates := [(0, 1), (1, 1)] })
    ∧ (0 : ℚ) < 10 := by
  refine ⟨nearest_nsC3_origin, nearest_nsC3_origin, ?_, by decide, ?_, by norm_num⟩
  · unfold findRoute
    have h1 : (if frC3.flowId ≠ "" then
        dfind rstC10.lastRerouteTime frC3.flowId else none) = some 0 := by
      rw [if_pos (by decide)]
      simp [dfind, rstC10, frC3]
    have h2 : ((1000 : ℚ) - 0 < MctsConfig.rerouteCooldownMs {}) := by
      norm_num
    have h3 : dfind rstC10.routeHistory frC3.flowId
        = some ([0, 1], (0 : ℚ)) := by
      simp [dfind, rstC10, frC3]
    simp only [h1]
    rw [if_pos h2]
    simp only [h3]
  · norm_num [allocateBandwidth, getPathAvailableBandwidth, minOptFold,
      linkAvail, linkPairs, scheduleFlow, updateQueueStates,
      calcDriftPlusPenalty, calcQoePenalty, calcPositioningPenalty,
      calcPathThroughput, serviceRate, makeSchedulingDecision, maxQueueVal,
      dget, dfind, dset, List.find?, frC3, nsC3]

/-- C10 witness run for the amended theorem: the empty router state has no
recorded last-reroute time, both endpoints of frC3 map to satellite 0, the
returned route is [0], and every downstream stage refuses it. -/
theorem c10_same_satellite_unallocatable_amended_witness :
    dfind (RouterState.lastRerouteTime {}) frC3.flowId = none
    ∧ (findRoute (fun _ _ => none) (fun q => q) {} {} 0 frC3 nsC3
        = (some [0], {})
      ∧ isPathFeasible [0] 10 nsC3 {} = false
      ∧ getPathAvailableBandwidth [0] nsC3 = 0
      ∧ bwAllocate {} frC3 [0] 10 nsC3 {} = (0, {})
      ∧ allocateBandwidth frC3 [0] nsC3 {} = (0, {})) :=
  ⟨rfl,
   c10_same_satellite_unallocatable_amended (fun _ _ => none) (fun q => q) {}
     {} 0 frC3 nsC3 0 10 {} {} {} (Or.inr (Or.inl rfl)) nearest_nsC3_origin
     nearest_nsC3_origin⟩

/- ## MCTS search tree (MCTSNode of mcts_routing.py)

An `MCTSNode` carries satellite_id, visits, total_reward, untried_actions
and an ordered child list; parent pointers are represented by the ancestor
path passed down the tree. -/

mutual
inductive MctsTree : Type where
  | node : Nat → Nat → ℚ → List Nat → MctsForest → MctsTree
inductive MctsForest : Type where
  | fnil : MctsForest
  | fcons : MctsTree → MctsForest → MctsForest
end

/-- `MCTSNode.add_child` appends the new child at the end of children. -/
def appendChild : MctsForest → MctsTree → MctsForest
  | .fnil, c => .fcons c .fnil
  | .fcons t f, c => .fcons t (appendChild f c)

/-- The root built by `_mcts_search`: zero statistics, untried_actions
initialised to the source's neighbors, no children. -/
def mkRoot (cfg : MctsConfig) (ns : NetworkState) (src : Nat) : MctsTree :=
  .node src 0 0 (getNeighbors cfg ns src) .fnil

mutual
/-- `MCTSRouter._expand` performed somewhere in the tree: at the expanded
node (whose ancestor path from the root is `anc`), an untried action `a`
is removed from untried_actions and a child for `a` is appended whose
untried_actions are a's neighbors minus `path[:-1] = anc ++ [sid]` (the
loop-avoidance filter of lines 214-217). -/
inductive ExpandsAt (cfg : MctsConfig) (ns : NetworkState) :
    List Nat → MctsTree → MctsTree → Prop where
  | here : ∀ (anc : List Nat) (sid v : Nat) (r : ℚ) (untried : List Nat)
      (kids : MctsForest) (a : Nat), a ∈ untried →
      ExpandsAt cfg ns anc (.node sid v r untried kids)
        (.node sid v r (untried.erase a)
          (appendChild kids
            (.node a 0 0
              ((getNeighbors cfg ns a).filter (fun s => decide (s ∉ anc ++ [sid])))
              .fnil)))
  | down : ∀ (anc : List Nat) (sid v : Nat) (r : ℚ) (untried : List Nat)
      (kids kids' : MctsForest),
      ExpandsInForest cfg ns (anc ++ [sid]) kids kids' →
      ExpandsAt cfg ns anc (.node sid v r untried kids) (.node sid v r untried kids')
inductive ExpandsInForest (cfg : MctsConfig) (ns : NetworkState) :
    List Nat → MctsForest → MctsForest → Prop where
  | headE : ∀ (anc : List Nat) (t t' : MctsTree) (f : MctsForest),
      ExpandsAt cfg ns anc t t' →
      ExpandsInForest cfg ns anc (.fcons t f) (.fcons t' f)
  | tailE : ∀ (anc : List Nat) (t : MctsTree) (f f' : MctsForest),
      ExpandsInForest cfg ns anc f f' →
      ExpandsInForest cfg ns anc (.fcons t f) (.fcons t f')
end

mutual
/-- Statistics updates (`MCTSNode.update` during `_backpropagate`,
arbitrarily often): node ids, untried actions and tree shape are
untouched; visits and total_reward change arbitrarily (a superset of the
actual +1 / +reward updates, which only strengthens the theorem). -/
inductive SameShapeT : MctsTree → MctsTree → Prop where
  | node : ∀ (sid v v' : Nat) (r r' : ℚ) (untried : List Nat)
      (kids kids' : MctsForest), SameShapeF kids kids' →
      SameShapeT (.node sid v r untried kids) (.node sid v' r' untried kids')
inductive SameShapeF : MctsForest → MctsForest → Prop where
  | fnil : SameShapeF .fnil .fnil
  | fcons : ∀ (t t' : MctsTree) (f f' : MctsForest),
      SameShapeT t t' → SameShapeF f f' →
      SameShapeF (.fcons t f) (.fcons t' f')
end

/-- One MCTS iteration effect on the tree: an expansion somewhere, or a
statistics update (selection and simulation do not modify the tree). -/
def MctsStep (cfg : MctsConfig) (ns : NetworkState) (t t' : MctsTree) : Prop :=
  ExpandsAt cfg ns [] t t' ∨ SameShapeT t t'

/-- Trees reachable from a root by any number of MCTS iterations. -/
def Reach (cfg : MctsConfig) (ns : NetworkState) : MctsTree → MctsTree → Prop :=
  Relation.ReflTransGen (MctsStep cfg ns)

mutual
/-- Well-formedness relative to the ancestor path `anc`: the node id is not
an ancestor, untried actions avoid the whole path to the node, and
children are well-formed one level deeper. -/
def TreeWF : List Nat → MctsTree → Prop
  | anc, .node sid _ _ untried kids =>
    sid ∉ anc ∧ (∀ u ∈ untried, u ∉ anc ++ [sid]) ∧ ForestWF (anc ++ [sid]) kids
def ForestWF : List Nat → MctsForest → Prop
  | _, .fnil => True
  | anc, .fcons t f => TreeWF anc t ∧ ForestWF anc f
end

theorem forestWF_appendChild (anc : List Nat) (c : MctsTree) :
    ∀ f : MctsForest, ForestWF anc f → TreeWF anc c → ForestWF anc (appendChild f c)
  | .fnil, _, hc => ⟨hc, trivial⟩
  | .fcons t f, hf, hc => ⟨hf.1, forestWF_appendChild anc c f hf.2 hc⟩

mutual
theorem expandsAt_wf {cfg : MctsConfig} {ns : NetworkState} :
    ∀ {anc : List Nat} {t t' : MctsTree}, ExpandsAt cfg ns anc t t' →
      TreeWF anc t → TreeWF anc t'
  | _, _, _, .here anc sid v r untried kids a ha, hwf => by
    obtain ⟨h1, h2, h3⟩ := hwf
    refine ⟨h1, fun u hu => h2 u (List.mem_of_mem_erase hu), ?_⟩
    refine forestWF_appendChild _ _ _ h3 ?_
    refine ⟨h2 a ha, ?_, trivial⟩
    intro u hu hbad
    have hmem := List.mem_filter.mp hu
    have hne := getNeighbors_ne cfg ns a u hmem.1
    have hnot : u ∉ anc ++ [sid] := by
      have := hmem.2; simpa using this
    rcases List.mem_append.mp hbad with hx | hx
    · exact hnot hx
    · exact hne (List.mem_singleton.mp hx)
  | _, _, _, .down anc sid v r untried kids kids' h, hwf =>
    ⟨hwf.1, hwf.2.1, expandsInForest_wf h hwf.2.2⟩
theorem expandsInForest_wf {cfg : MctsConfig} {ns : NetworkState} :
    ∀ {anc : List Nat} {f f' : MctsForest}, ExpandsInForest cfg ns anc f f' →
      ForestWF anc f → ForestWF anc f'
  | _, _, _, .headE anc t t' f h, hwf => ⟨expandsAt_wf h hwf.1, hwf.2⟩
  | _, _, _, .tailE anc t f f' h, hwf => ⟨hwf.1, expandsInForest_wf h hwf.2⟩
end

mutual
theorem sameShapeT_wf :
    ∀ {t t' : MctsTree}, SameShapeT t t' → ∀ anc, TreeWF anc t → TreeWF anc t'
  | _, _, .node sid v v' r r' untried kids kids' h, anc, hwf =>
    ⟨hwf.1, hwf.2.1, sameShapeF_wf h (anc ++ [sid]) hwf.2.2⟩
theorem sameShapeF_wf :
    ∀ {f f' : MctsForest}, SameShapeF f f' → ∀ anc, ForestWF anc f → ForestWF anc f'
  | _, _, .fnil, _, h => h
  | _, _, .fcons t t' f f' ht hf, anc, hwf =>
    ⟨sameShapeT_wf ht anc hwf.1, sameShapeF_wf hf anc hwf.2⟩
end

theorem mkRoot_wf (cfg : MctsConfig) (ns : NetworkState) (src : Nat) :
    TreeWF [] (mkRoot cfg ns src) := by
  refine ⟨List.not_mem_nil src, ?_, trivial⟩
  intro u hu
  have := getNeighbors_ne cfg ns src u hu
  simp [this]

theorem reach_wf {cfg : MctsConfig} {ns : NetworkState} {t t' : MctsTree}
    (h : Reach cfg ns t t') (hwf : TreeWF [] t) : TreeWF [] t' := by
  induction h with
  | refl => exact hwf
  | tail hab hbc ih =>
    rcases hbc with hexp | hsh
    · exact expandsAt_wf hexp ih
    · exact sameShapeT_wf hsh [] ih

mutual
/-- `dfs_find_paths` of `MCTSRouter._select_best_path`: emit (path, score)
with score = visits + average reward at every node whose id equals the
destination; below a non-destination node recurse into the children only
while the current path is shorter than max_hops. -/
def dfsTree (mh dest : Nat) : MctsTree → List Nat → List (List Nat × ℚ)
  | .node sid v r _ kids, cur =>
    if sid = dest then
      [(cur ++ [sid], (v : ℚ) + (if 0 < v then r / (v : ℚ) else 0))]
    else if (cur ++ [sid]).length < mh then dfsForest mh dest kids (cur ++ [sid])
    else []
def dfsForest (mh dest : Nat) : MctsForest → List Nat → List (List Nat × ℚ)
  | .fnil, _ => []
  | .fcons t f, cur => dfsTree mh dest t cur ++ dfsForest mh dest f cur
end

/-- The best_score/best_path accumulation of `_select_best_path`: strict
improvement over the running best, starting from (None, -1). -/
def chooseBest (cands : List (List Nat × ℚ)) : Option (List Nat) :=
  (cands.foldl
    (fun acc c => if acc.2 < c.2 then (some c.1, c.2) else acc)
    ((none : Option (List Nat)), (-1 : ℚ))).1

/-- `MCTSRouter._select_best_path` on a search tree. -/
def selectBestPath (mh dest : Nat) (t : MctsTree) : Option (List Nat) :=
  chooseBest (dfsTree mh dest t [])

theorem chooseBest_fold_mem (cands : List (List Nat × ℚ)) :
    ∀ (acc : Option (List Nat) × ℚ) (p : List Nat),
      (cands.foldl
        (fun acc c => if acc.2 < c.2 then (some c.1, c.2) else acc) acc).1
        = some p →
      acc.1 = some p ∨ ∃ s, (p, s) ∈ cands := by
  induction cands with
  | nil => intro acc p h; exact Or.inl h
  | cons c cs ih =>
    intro acc p h
    rcases ih _ p h with hacc | ⟨s, hs⟩
    · simp only at hacc
      by_cases hlt : acc.2 < c.2
      · rw [if_pos hlt] at hacc
        refine Or.inr ⟨c.2, ?_⟩
        obtain rfl : c.1 = p := by simpa using hacc
        exact List.mem_cons_self _ _
      · rw [if_neg hlt] at hacc
        exact Or.inl hacc
    · exact Or.inr ⟨s, List.mem_cons_of_mem _ hs⟩

theorem chooseBest_mem (cands : List (List Nat × ℚ)) (p : List Nat)
    (h : chooseBest cands = some p) : ∃ s, (p, s) ∈ cands := by
  rcases chooseBest_fold_mem cands (none, -1) p h with hacc | hmem
  · exact absurd hacc (by simp)
  · exact hmem

theorem nodup_snoc {cur : List Nat} {sid : Nat}
    (hnd : cur.Nodup) (hs : sid ∉ cur) : (cur ++ [sid]).Nodup := by
  simp [List.nodup_append, hnd, hs]

mutual
theorem dfsTree_nodup (mh dest : Nat) :
    ∀ (t : MctsTree) (cur : List Nat), TreeWF cur t → cur.Nodup →
      ∀ pr ∈ dfsTree mh dest t cur, pr.1.Nodup
  | .node sid v r untried kids, cur, hwf, hnd, pr, hpr => by
    rw [dfsTree] at hpr
    by_cases hd : sid = dest
    · rw [if_pos hd] at hpr
      have hpr1 : pr.1 = cur ++ [sid] := by
        rcases List.mem_singleton.mp hpr with rfl
        rfl
      rw [hpr1]
      exact nodup_snoc hnd hwf.1
    · rw [if_neg hd] at hpr
      by_cases hl : (cur ++ [sid]).length < mh
      · rw [if_pos hl] at hpr
        exact dfsForest_nodup mh dest kids (cur ++ [sid]) hwf.2.2
          (nodup_snoc hnd hwf.1) pr hpr
      · rw [if_neg hl] at hpr
        exact absurd hpr (List.not_mem_nil pr)
theorem dfsForest_nodup (mh dest : Nat) :
    ∀ (f : MctsForest) (cur : List Nat), ForestWF cur f → cur.Nodup →
      ∀ pr ∈ dfsForest mh dest f cur, pr.1.Nodup
  | .fnil, cur, _, _, pr, hpr => absurd hpr (List.not_mem_nil pr)
  | .fcons t f, cur, hwf, hnd, pr, hpr => by
    rw [dfsForest] at hpr
    rcases List.mem_append.mp hpr with hx | hx
    · exact dfsTree_nodup mh dest t cur hwf.1 hnd pr hx
    · exact dfsForest_nodup mh dest f cur hwf.2 hnd pr hx
end

/-- Any path extracted by `_select_best_path` from a tree reachable from
the search root repeats no satellite id. -/
theorem selectBestPath_nodup {cfg : MctsConfig} {ns : NetworkState}
    {src : Nat} {t : MctsTree} {mh dest : Nat} {p : List Nat}
    (hre : Reach cfg ns (mkRoot cfg ns src) t)
    (hsel : selectBestPath mh dest t = some p) : p.Nodup := by
  obtain ⟨s, hs⟩ := chooseBest_mem _ p hsel
  exact dfsTree_nodup mh dest t [] (reach_wf hre (mkRoot_wf cfg ns src))
    List.nodup_nil (p, s) hs

theorem findRouteCore_nodup
    (searchResult : Nat → Nat → Option (List Nat)) (sqrtq : ℚ → ℚ)
    (cfg : MctsConfig) (rst : RouterState) (nowMs : ℚ) (fr : FlowRequest)
    (ns : NetworkState) (p : List Nat) (rst' : RouterState)
    (hsearch : ∀ s d q, searchResult s d = some q →
      ∃ t, Reach cfg ns (mkRoot cfg ns s) t ∧ selectBestPath cfg.maxHops d t = some q)
    (hrun : findRouteCore searchResult sqrtq rst nowMs fr ns = (some p, rst')) :
    p.Nodup := by
  unfold findRouteCore at hrun
  split at hrun
  · next s d hs hd =>
    split at hrun
    · simp only [Prod.mk.injEq, Option.some.injEq] at hrun
      obtain ⟨rfl, -⟩ := hrun
      simp
    · split at hrun
      · next route hroute =>
        split at hrun
        · simp only [Prod.mk.injEq, Option.some.injEq] at hrun
          obtain ⟨rfl, -⟩ := hrun
          obtain ⟨t, hre, hsel⟩ := hsearch s d route hroute
          exact selectBestPath_nodup hre hsel
        · simp at hrun
      · simp at hrun
  · simp at hrun

/-- C8: every route returned by `MCTSRouter.find_route` repeats no
satellite id, provided (i) every route the search stage can return is
extracted by `_select_best_path` from a tree grown from the root by
expansion and statistics updates (the `hsearch` contract of the
`searchResult` oracle) and (ii) every route already recorded in
route_history repeats no satellite id (the cooldown branch replays
recorded routes verbatim; under (i) all newly recorded routes satisfy
this). -/
theorem c8_find_route_no_repeats
    (searchResult : Nat → Nat → Option (List Nat)) (sqrtq : ℚ → ℚ)
    (cfg : MctsConfig) (rst : RouterState) (nowMs : ℚ) (fr : FlowRequest)
    (ns : NetworkState) (p : List Nat) (rst' : RouterState)
    (hsearch : ∀ s d q, searchResult s d = some q →
      ∃ t, Reach cfg ns (mkRoot cfg ns s) t ∧ selectBestPath cfg.maxHops d t = some q)
    (hhist : ∀ pr ∈ rst.routeHistory, pr.2.1.Nodup)
    (hrun : findRoute searchResult sqrtq cfg rst nowMs fr ns = (some p, rst')) :
    p.Nodup := by
  unfold findRoute at hrun
  split at hrun
  · split at hrun
    · split at hrun
      · next old hold =>
        simp only [Prod.mk.injEq, Option.some.injEq] at hrun
        obtain ⟨rfl, -⟩ := hrun
        exact hhist _ (dfind_mem hold)
      · exact findRouteCore_nodup searchResult sqrtq cfg rst nowMs fr ns p rst'
          hsearch hrun
    · exact findRouteCore_nodup searchResult sqrtq cfg rst nowMs fr ns p rst'
        hsearch hrun
  · exact findRouteCore_nodup searchResult sqrtq cfg rst nowMs fr ns p rst'
      hsearch hrun

/-- Two-satellite witness network evaluations for the C8 run. -/
theorem getNeighbors_nsC3_zero :
    getNeighbors ({} : MctsConfig) nsC3 0 = [1] := by
  norm_num [getNeighbors, nsC3, dget, List.range_succ]

theorem getNeighbors_nsC3_one :
    getNeighbors ({} : MctsConfig) nsC3 1 = [] := by
  norm_num [getNeighbors, nsC3, dget, List.range_succ]

theorem mkRoot_nsC3_eq :
    mkRoot ({} : MctsConfig) nsC3 0 = .node 0 0 0 [1] .fnil := by
  unfold mkRoot
  rw [getNeighbors_nsC3_zero]

/-- The tree after one expansion of the C8 witness root. -/
def tC8 : MctsTree := .node 0 0 0 [] (.fcons (.node 1 0 0 [] .fnil) .fnil)

theorem expands_tC8 :
    ExpandsAt ({} : MctsConfig) nsC3 [] (mkRoot ({} : MctsConfig) nsC3 0) tC8 := by
  rw [mkRoot_nsC3_eq]
  have h := @ExpandsAt.here {} nsC3 [] 0 0 0 [1] .fnil 1 (by simp)
  have e1 : ([1] : List Nat).erase 1 = [] := rfl
  have e2 : ((getNeighbors ({} : MctsConfig) nsC3 1).filter
      (fun s => decide (s ∉ ([] : List Nat) ++ [0]))) = [] := by
    rw [getNeighbors_nsC3_one]; rfl
  rw [e1, e2] at h
  exact h

theorem selectBest_tC8 :
    selectBestPath (MctsConfig.maxHops {}) 1 tC8 = some [0, 1] := by
  norm_num [selectBestPath, tC8, dfsTree, dfsForest, chooseBest]

def searchResultW8 : Nat → Nat → Option (List Nat) :=
  fun s d => if s = 0 ∧ d = 1 then some [0, 1] else none

theorem searchResultW8_contract :
    ∀ s d q, searchResultW8 s d = some q →
      ∃ t, Reach ({} : MctsConfig) nsC3 (mkRoot ({} : MctsConfig) nsC3 s) t
        ∧ selectBestPath (MctsConfig.maxHops {}) d t = some q := by
  intro s d q h
  unfold searchResultW8 at h
  by_cases hc : s = 0 ∧ d = 1
  · rw [if_pos hc] at h
    obtain ⟨rfl, rfl⟩ := hc
    injection h with h2
    subst h2
    exact ⟨tC8, Relation.ReflTransGen.single (Or.inl expands_tC8), selectBest_tC8⟩
  · rw [if_neg hc] at h
    exact absurd h (by simp)

def frC8 : FlowRequest := { frC3 with destination := (1, 1) }

theorem nearest_nsC3_one :
    findNearestSatellite (fun q => q) (1, 1) nsC3 = some 1 := by
  norm_num [findNearestSatellite, nsC3]

def rstC8 : RouterState :=
  { routeHistory := [("flow_u1_t0", ([0, 1], 0))],
    lastRerouteTime := [("flow_u1_t0", 0)] }

theorem findRoute_frC8_run :
    findRoute searchResultW8 (fun q => q) {} {} 0 frC8 nsC3
      = (some [0, 1], rstC8) := by
  unfold findRoute
  have h1 : (if frC8.flowId ≠ "" then
      dfind (RouterState.lastRerouteTime {}) frC8.flowId else none) = none := by
    simp [dfind]
  rw [h1]
  unfold findRouteCore
  have hs : findNearestSatellite (fun q => q) frC8.source nsC3 = some 0 := by
    have hsrc : frC8.source = ((0 : ℚ), (0 : ℚ)) := rfl
    rw [hsrc]; exact nearest_nsC3_origin
  have hd : findNearestSatellite (fun q => q) frC8.destination nsC3 = some 1 := by
    have hdst : frC8.destination = ((1 : ℚ), (1 : ℚ)) := rfl
    rw [hdst]; exact nearest_nsC3_one
  rw [hs, hd]
  norm_num [searchResultW8, dset, frC8, frC3, rstC8]
  decide

/-- C8 witness run: the concrete search oracle satisfies the contract, the
empty router state has an all-Nodup history, and the returned route [0,1]
repeats no satellite id. -/
theorem c8_find_route_no_repeats_witness :
    findRoute searchResultW8 (fun q => q) {} {} 0 frC8 nsC3
      = (some [0, 1], rstC8)
    ∧ List.Nodup [0, 1] :=
  ⟨findRoute_frC8_run,
   c8_find_route_no_repeats searchResultW8 (fun q => q) {} {} 0 frC8 nsC3
     [0, 1] rstC8 searchResultW8_contract (by simp) findRoute_frC8_run⟩
